import Mathlib

/-!
Shallow embedding of the heera-server order / address / auth workflows
(Express + Mongoose e-commerce backend).  The document store is modelled
as explicit lists of documents threaded through each handler; every
handler returns the resulting store together with an `Except` carrying
either the HTTP error response it emits or the payload it returns.
Randomized values (uuid transaction ids, bcrypt hashes) and wall-clock
timestamps are external inputs of the real system and are omitted from
the documents, as no verified property mentions them.
-/

namespace Heera

/-- Order status enum of `orderSchema.status` (src/models/Order.js). -/
inductive OrderStatus where
  | pending
  | confirmed
  | preparing
  | out_for_delivery
  | delivered
  | cancelled
deriving DecidableEq

/-- Payment method enum of `orderSchema.paymentMethod` (src/models/Order.js). -/
inductive PaymentMethod where
  | cod
  | upi
  | card
  | wallet
  | netbanking
deriving DecidableEq

/-- Product document (src/models/Product.js): the fields read or written by the
order workflow.  `stockCount` and `totalSold` are `Int` because the store's
`$inc` updates are unguarded additions. -/
structure Product where
  id : Nat
  name : String
  price : Nat
  isActive : Bool
  inStock : Bool
  stockCount : Int
  totalSold : Int
  images : List String
  unit : String
deriving DecidableEq

/-- One entry of the `items` array of a create-order request body
(route `POST /api/orders`).  The client may send a `price`; the handler
never reads it (it uses the catalog price). -/
structure ReqItem where
  productId : Nat
  quantity : Nat
  price : Nat
  variant : Option String
deriving DecidableEq

/-- Embedded order item (`orderItemSchema`, src/models/Order.js). -/
structure OrderItem where
  productId : Nat
  name : String
  quantity : Nat
  price : Nat
  image : Option String
  unit : String
  variant : String
deriving DecidableEq

/-- Embedded tracking step (`orderTrackingStepSchema`, src/models/Order.js);
the wall-clock `time` field is omitted. -/
structure TrackingStep where
  status : String
  description : String
  completed : Bool
deriving DecidableEq

/-- Denormalized delivery address snapshot stored on an order
(`orderSchema.deliveryAddress`, src/models/Order.js). -/
structure DeliveryAddress where
  name : String
  phone : String
  address : String
  landmark : Option String
  city : String
  state : String
  pincode : String
deriving DecidableEq

/-- Order document (`orderSchema`, src/models/Order.js). -/
structure Order where
  id : Nat
  userId : Nat
  orderNumber : String
  status : OrderStatus
  items : List OrderItem
  totalAmount : Nat
  deliveryFee : Nat
  discount : Nat
  finalAmount : Nat
  deliveryAddress : DeliveryAddress
  paymentMethod : PaymentMethod
  paymentStatus : String
  orderTracking : List TrackingStep
  canCancel : Bool
  canReorder : Bool
  canRate : Bool
  rating : Option Nat
  review : Option String
  promoCode : Option String
  specialInstructions : Option String
deriving DecidableEq

/-- Address document (`addressSchema`, src/models/Address.js). -/
structure Address where
  id : Nat
  userId : Nat
  type : String
  name : String
  phone : String
  addressLine1 : String
  addressLine2 : Option String
  landmark : Option String
  city : String
  state : String
  pincode : String
  isDefault : Bool
deriving DecidableEq

/-- User document (`userSchema`, src/unnamed/part_003): the fields the
order and auth workflows touch.  Counters are `Int` because `$inc`
updates are unguarded additions. -/
structure User where
  id : Nat
  name : String
  email : String
  phone : String
  password : String
  totalOrders : Int
  totalSpent : Int
  isActive : Bool
deriving DecidableEq

/-- Transaction (ledger) document: the fields written by the order workflow
(src/unnamed/part_007).  The random `transactionId` (uuid) and the
`customerDetails` copy of the caller are omitted. -/
structure Transaction where
  userId : Nat
  orderId : Nat
  orderNumber : String
  amount : Nat
  status : String
  paymentMethod : PaymentMethod
  description : String
deriving DecidableEq

/-- Notification document: the fields written by the order workflow. -/
structure Notification where
  userId : Nat
  type : String
  title : String
  message : String
deriving DecidableEq

/-- The document store: one list per collection, plus a supply of fresh
document ids (`nextId`), standing for the store's unique `_id` generation. -/
structure DB where
  products : List Product
  orders : List Order
  users : List User
  addresses : List Address
  transactions : List Transaction
  notifications : List Notification
  nextId : Nat
deriving DecidableEq

/-- An HTTP error response: `res.status(code).json({success:false, message})`. -/
structure ErrResp where
  status : Nat
  message : String
deriving DecidableEq

/-- Result of a handler: the store after its sequential writes, together with
the emitted error or the returned payload. -/
abbrev HResult (α : Type) := DB × Except ErrResp α

/-! ## Generic single-collection operations

`_id` lookup and update.  The store updates at most one document per
`findByIdAndUpdate` call, so the model updates the first (in a healthy
store, only) document whose id matches. -/

/-- `Model.findById(k)` / `findOne({_id: k})`: first document whose id is `k`. -/
def findBy {α : Type} (key : α → Nat) (k : Nat) (l : List α) : Option α :=
  l.find? (fun x => key x == k)

/-- `Model.findByIdAndUpdate(k, f)`: rewrite the first document whose id is `k`. -/
def findByIdAndUpdate {α : Type} (key : α → Nat) (l : List α) (k : Nat) (f : α → α) :
    List α :=
  match l with
  | [] => []
  | x :: xs => if key x == k then f x :: xs else x :: findByIdAndUpdate key xs k f

/-- `Model.findOneAndUpdate(filter, f)`: rewrite the first document matching
the filter. -/
def findOneAndUpdate {α : Type} (pred : α → Bool) (l : List α) (f : α → α) : List α :=
  match l with
  | [] => []
  | x :: xs => if pred x then f x :: xs else x :: findOneAndUpdate pred xs f

/-- `Model.findByIdAndDelete(k)`: remove the first document whose id is `k`. -/
def removeById {α : Type} (key : α → Nat) (l : List α) (k : Nat) : List α :=
  match l with
  | [] => []
  | x :: xs => if key x == k then xs else x :: removeById key xs k

/-- `Address.findOne({_id: aid, userId: uid})` (ownership-checked lookup). -/
def findAddressOwned (l : List Address) (aid uid : Nat) : Option Address :=
  l.find? (fun a => a.id == aid && a.userId == uid)

/-- `Order.findOne({_id: oid, userId: uid})` (ownership-checked lookup). -/
def findOrderOwned (l : List Order) (oid uid : Nat) : Option Order :=
  l.find? (fun o => o.id == oid && o.userId == uid)

/-! ## Order helpers (src/models/Order.js) -/

/-- String of `n` zeros. -/
def zeros : Nat → String
  | 0 => ""
  | n + 1 => "0" ++ zeros n

/-- JavaScript `s.padStart(len, zero-digit)`: prepend zeros up to width `len`. -/
def padStart (len : Nat) (s : String) : String :=
  zeros (len - s.length) ++ s

/-- Order number assigned by the first `orderSchema.pre(save)` hook
(src/models/Order.js:199-211): `HRA` followed by (number of order documents
in the collection + 1), zero-padded to at least six digits. -/
def generateOrderNumber (orderCount : Nat) : String :=
  "HRA" ++ padStart 6 (toString (orderCount + 1))

/-- JavaScript `product?.name or-else Unknown` of the unavailable-product
error message (src/unnamed/part_007:60): an absent product, or a product with
a falsy (empty) name, reads as `Unknown`. -/
def jsNameOrUnknown : Option Product → String
  | none => "Unknown"
  | some p => if p.name = "" then "Unknown" else p.name

/-- JavaScript `s or-else empty-string` on an optional string field. -/
def jsOrEmpty (v : Option String) : String :=
  match v with
  | none => ""
  | some s => if s = "" then "" else s

/-- JavaScript truthiness of `order.rating` (a number field): absent or zero
is falsy. -/
def jsTruthyRating : Option Nat → Bool
  | none => false
  | some n => !(n == 0)

/-- Create-order request body (route `POST /api/orders`).  The route
validation layer guarantees a non-empty `items` array with quantities at
least 1; the client cannot supply an order number (no such field). -/
structure CreateOrderReq where
  items : List ReqItem
  deliveryAddressId : Nat
  paymentMethod : PaymentMethod
  promoCode : Option String
  specialInstructions : Option String
deriving DecidableEq

/-- `addressSchema.methods.getFullAddress` (src/models/Address.js:99-105). -/
def getFullAddress (a : Address) : String :=
  let s1 := a.addressLine1
  let s2 := if jsOrEmpty a.addressLine2 = "" then s1 else s1 ++ ", " ++ jsOrEmpty a.addressLine2
  let s3 := if jsOrEmpty a.landmark = "" then s2 else s2 ++ ", Near " ++ jsOrEmpty a.landmark
  s3 ++ ", " ++ a.city ++ ", " ++ a.state ++ " - " ++ a.pincode

/-- Delivery-address snapshot denormalized onto the order at creation
(src/unnamed/part_007:105-113). -/
def snapshotAddress (a : Address) : DeliveryAddress :=
  { name := a.name
    phone := a.phone
    address := getFullAddress a
    landmark := a.landmark
    city := a.city
    state := a.state
    pincode := a.pincode }

/-- Per-item validation loop of `createOrder` (src/unnamed/part_007:53-90):
look the product up, reject it when missing, inactive, out of stock or
under-stocked, and otherwise accumulate the snapshot item and the running
total at the current catalog price. -/
def validateItems (ps : List Product) : List ReqItem → Except ErrResp (List OrderItem × Nat)
  | [] => Except.ok ([], 0)
  | item :: rest =>
    match findBy Product.id item.productId ps with
    | none =>
      Except.error ⟨400, "Product " ++ jsNameOrUnknown none ++ " is not available"⟩
    | some product =>
      if !product.isActive || !product.inStock then
        Except.error ⟨400, "Product " ++ jsNameOrUnknown (some product) ++ " is not available"⟩
      else if product.stockCount < (item.quantity : Int) then
        Except.error ⟨400, "Insufficient stock for " ++ product.name ++ ". Available: "
          ++ toString product.stockCount⟩
      else
        match validateItems ps rest with
        | Except.error e => Except.error e
        | Except.ok (its, total) =>
          Except.ok
            ({ productId := product.id
               name := product.name
               quantity := item.quantity
               price := product.price
               image := product.images.head?
               unit := product.unit
               variant := jsOrEmpty item.variant } :: its,
             product.price * item.quantity + total)

/-- Post-creation stock write loop (src/unnamed/part_007:127-135): for each
ordered item, `$inc` the product's `stockCount` by `-quantity` and its
`totalSold` by `+quantity`. -/
def updateStockLoop (ps : List Product) (items : List OrderItem) : List Product :=
  items.foldl
    (fun acc item =>
      findByIdAndUpdate Product.id acc item.productId
        (fun p => { p with stockCount := p.stockCount - (item.quantity : Int)
                           totalSold := p.totalSold + (item.quantity : Int) }))
    ps

/-- Cancellation stock write loop (src/unnamed/part_007:312-320): for each
item of the cancelled order, `$inc` the product's `stockCount` by `+quantity`
and its `totalSold` by `-quantity`. -/
def restoreStockLoop (ps : List Product) (items : List OrderItem) : List Product :=
  items.foldl
    (fun acc item =>
      findByIdAndUpdate Product.id acc item.productId
        (fun p => { p with stockCount := p.stockCount + (item.quantity : Int)
                           totalSold := p.totalSold - (item.quantity : Int) }))
    ps

/-- `$inc {totalOrders, totalSpent}` on the calling user (placement adds,
cancellation subtracts). -/
def incUserStats (us : List User) (uid : Nat) (dOrders dSpent : Int) : List User :=
  findByIdAndUpdate User.id us uid
    (fun u => { u with totalOrders := u.totalOrders + dOrders
                       totalSpent := u.totalSpent + dSpent })

/-- `createOrder` (src/unnamed/part_007:14-193), `POST /api/orders`.
Sequence: ownership-checked address lookup; per-item validation at current
catalog data; flat-fee / free-delivery split at 500; order insertion (the
`pre(save)` hooks assign the order number from the collection count and
recompute `finalAmount = totalAmount + deliveryFee - discount`, and the
schema rejects an empty item list, surfaced as a 400 by the central error
formatter); then the sequential side-effect writes: stock decrement loop,
user aggregates, ledger entry, notification. -/
def createOrder (db : DB) (userId : Nat) (req : CreateOrderReq) : HResult Order :=
  match findAddressOwned db.addresses req.deliveryAddressId userId with
  | none => (db, Except.error ⟨400, "Invalid delivery address"⟩)
  | some deliveryAddress =>
    match validateItems db.products req.items with
    | Except.error e => (db, Except.error e)
    | Except.ok (orderItems, totalAmount) =>
      let deliveryFee : Nat := if 500 ≤ totalAmount then 0 else 40
      let discount : Nat := 0
      let finalAmount : Nat := totalAmount + deliveryFee - discount
      if orderItems.isEmpty then
        (db, Except.error ⟨400, "Order must have at least one item"⟩)
      else
        let order : Order :=
          { id := db.nextId
            userId := userId
            orderNumber := generateOrderNumber db.orders.length
            status := OrderStatus.pending
            items := orderItems
            totalAmount := totalAmount
            deliveryFee := deliveryFee
            discount := discount
            finalAmount := totalAmount + deliveryFee - discount
            deliveryAddress := snapshotAddress deliveryAddress
            paymentMethod := req.paymentMethod
            paymentStatus := "pending"
            orderTracking := [⟨"Order Placed", "Your order has been placed successfully", true⟩]
            canCancel := true
            canReorder := false
            canRate := false
            rating := none
            review := none
            promoCode := req.promoCode
            specialInstructions := req.specialInstructions }
        let transaction : Transaction :=
          { userId := userId
            orderId := order.id
            orderNumber := order.orderNumber
            amount := finalAmount
            status := if req.paymentMethod = PaymentMethod.cod then "pending" else "completed"
            paymentMethod := req.paymentMethod
            description := "Payment for order " ++ order.orderNumber }
        let notification : Notification :=
          { userId := userId
            type := "order"
            title := "Order Placed Successfully!"
            message := "Your order " ++ order.orderNumber
              ++ " has been placed and will be delivered soon." }
        ({ db with
            orders := db.orders ++ [order]
            products := updateStockLoop db.products orderItems
            users := incUserStats db.users userId 1 (finalAmount : Int)
            transactions := db.transactions ++ [transaction]
            notifications := db.notifications ++ [notification]
            nextId := db.nextId + 1 },
         Except.ok order)

/-- `cancelOrder` (src/unnamed/part_007:276-354), `PUT /api/orders/:id/cancel`.
Guard: order owned by caller, `canCancel` set, status neither delivered nor
cancelled.  Effects: status to cancelled, flag flips, tracking step appended,
stock restore loop, user aggregates decremented, ledger entry flipped to
cancelled, notification appended.  The `pre(save)` hooks leave `orderNumber`
and `finalAmount` unchanged (the order is not new and its amount components
are not modified). -/
def cancelOrder (db : DB) (userId oid : Nat) : HResult Order :=
  match findOrderOwned db.orders oid userId with
  | none => (db, Except.error ⟨404, "Order not found"⟩)
  | some order =>
    if !order.canCancel || order.status == OrderStatus.delivered
        || order.status == OrderStatus.cancelled then
      (db, Except.error ⟨400, "This order cannot be cancelled"⟩)
    else
      let order2 : Order :=
        { order with
            status := OrderStatus.cancelled
            canCancel := false
            canReorder := true
            orderTracking := order.orderTracking
              ++ [⟨"Order Cancelled", "Order has been cancelled by user", true⟩] }
      let notification : Notification :=
        { userId := userId
          type := "order"
          title := "Order Cancelled"
          message := "Your order " ++ order.orderNumber ++ " has been cancelled successfully." }
      ({ db with
          orders := findByIdAndUpdate Order.id db.orders oid (fun _ => order2)
          products := restoreStockLoop db.products order.items
          users := incUserStats db.users userId (-1) (-(order.finalAmount : Int))
          transactions :=
            findOneAndUpdate (fun t => t.orderId == oid && t.userId == userId)
              db.transactions (fun t => { t with status := "cancelled" })
          notifications := db.notifications ++ [notification] },
       Except.ok order2)

/-- Per-item re-validation loop of `reorderOrder` (src/unnamed/part_007:386-411):
each snapshot item of the original order is checked against current product
data; unavailable or under-stocked items are recorded by name and dropped,
purchasable ones are re-snapshotted at current catalog data. -/
def revalidateItems (ps : List Product) :
    List OrderItem → List OrderItem × Nat × List String
  | [] => ([], 0, [])
  | item :: rest =>
    let r := revalidateItems ps rest
    match findBy Product.id item.productId ps with
    | none => (r.1, r.2.1, item.name :: r.2.2)
    | some product =>
      if !product.isActive || !product.inStock then
        (r.1, r.2.1, item.name :: r.2.2)
      else if product.stockCount < (item.quantity : Int) then
        (r.1, r.2.1, (item.name ++ " (insufficient stock)") :: r.2.2)
      else
        ({ productId := product.id
           name := product.name
           quantity := item.quantity
           price := product.price
           image := product.images.head?
           unit := product.unit
           variant := jsOrEmpty (some item.variant) } :: r.1,
         product.price * item.quantity + r.2.1,
         r.2.2)

/-- `reorderOrder` (src/unnamed/part_007:360-505), `POST /api/orders/:id/reorder`.
Guard: original order owned by caller with `canReorder` set.  Re-validates
every snapshot item, fails when none remains purchasable, and otherwise
creates a new order reusing the original delivery-address snapshot and
payment method, followed by the same side-effect writes as placement. -/
def reorderOrder (db : DB) (userId oid : Nat) : HResult Order :=
  match findOrderOwned db.orders oid userId with
  | none => (db, Except.error ⟨404, "Original order not found"⟩)
  | some originalOrder =>
    if !originalOrder.canReorder then
      (db, Except.error ⟨400, "This order cannot be reordered"⟩)
    else
      let r := revalidateItems db.products originalOrder.items
      let items := r.1
      let totalAmount := r.2.1
      if items.isEmpty then
        (db, Except.error ⟨400, "No products from the original order are currently available"⟩)
      else
        let deliveryFee : Nat := if 500 ≤ totalAmount then 0 else 40
        let finalAmount : Nat := totalAmount + deliveryFee
        let newOrder : Order :=
          { id := db.nextId
            userId := userId
            orderNumber := generateOrderNumber db.orders.length
            status := OrderStatus.pending
            items := items
            totalAmount := totalAmount
            deliveryFee := deliveryFee
            discount := 0
            finalAmount := totalAmount + deliveryFee - 0
            deliveryAddress := originalOrder.deliveryAddress
            paymentMethod := originalOrder.paymentMethod
            paymentStatus := "pending"
            orderTracking := [⟨"Order Placed", "Reorder placed successfully", true⟩]
            canCancel := true
            canReorder := false
            canRate := false
            rating := none
            review := none
            promoCode := none
            specialInstructions := none }
        let transaction : Transaction :=
          { userId := userId
            orderId := newOrder.id
            orderNumber := newOrder.orderNumber
            amount := finalAmount
            status :=
              if originalOrder.paymentMethod = PaymentMethod.cod then "pending" else "completed"
            paymentMethod := originalOrder.paymentMethod
            description := "Payment for reorder " ++ newOrder.orderNumber }
        let notification : Notification :=
          { userId := userId
            type := "order"
            title := "Reorder Placed Successfully!"
            message := "Your reorder " ++ newOrder.orderNumber
              ++ " has been placed and will be delivered soon." }
        ({ db with
            orders := db.orders ++ [newOrder]
            products := updateStockLoop db.products items
            users := incUserStats db.users userId 1 (finalAmount : Int)
            transactions := db.transactions ++ [transaction]
            notifications := db.notifications ++ [notification]
            nextId := db.nextId + 1 },
         Except.ok newOrder)

/-- `rateOrder` (src/unnamed/part_007:511-573), `PUT /api/orders/:id/rate`.
Guard: order owned by caller, `canRate` set, status delivered, no rating
recorded (JavaScript truthiness of the rating field).  Effects: set rating
and review, clear `canRate`, save, append a notification. -/
def rateOrder (db : DB) (userId oid : Nat) (rating : Nat) (review : Option String) :
    HResult Order :=
  match findOrderOwned db.orders oid userId with
  | none => (db, Except.error ⟨404, "Order not found"⟩)
  | some order =>
    if !order.canRate || !(order.status == OrderStatus.delivered) then
      (db, Except.error ⟨400, "This order cannot be rated"⟩)
    else if jsTruthyRating order.rating then
      (db, Except.error ⟨400, "Order has already been rated"⟩)
    else
      let order2 : Order := { order with rating := some rating, review := review, canRate := false }
      let notification : Notification :=
        { userId := userId
          type := "rating"
          title := "Thank you for your rating!"
          message := "You rated order " ++ order.orderNumber ++ " with "
            ++ toString rating ++ " stars." }
      ({ db with
          orders := findByIdAndUpdate Order.id db.orders oid (fun _ => order2)
          notifications := db.notifications ++ [notification] },
       Except.ok order2)

/-! ## Address operations (src/controllers/addressController.js,
src/models/Address.js) -/

/-- The `pre(save)` hook of `addressSchema` (src/models/Address.js:83-96):
when the document being saved is default, `updateMany` flips `isDefault`
off on every other address of the same user.  Also issued explicitly by
`setDefaultAddress` (src/controllers/addressController.js:168-172). -/
def unsetOtherDefaults (l : List Address) (uid aid : Nat) : List Address :=
  l.map (fun a =>
    if a.userId == uid && !(a.id == aid) then { a with isDefault := false } else a)

/-- Add-address request body (`POST /api/addresses`).  The route validation
requires the main fields; `isDefault` is passed through by the spread of
`req.body` into `addressData` and defaults to false in the schema. -/
structure AddressReq where
  type : String
  name : String
  phone : String
  addressLine1 : String
  addressLine2 : Option String
  landmark : Option String
  city : String
  state : String
  pincode : String
  isDefault : Option Bool
deriving DecidableEq

/-- Update-address request body (`PUT /api/addresses/:id`): every field
optional.  The spread of `req.body` into `updateData` also carries a
client-supplied `userId` if present (only `isDefault` is deleted by the
controller), and `userId` is a schema path, so the store applies it. -/
structure AddressUpdateReq where
  userId : Option Nat
  type : Option String
  name : Option String
  phone : Option String
  addressLine1 : Option String
  addressLine2 : Option String
  landmark : Option String
  city : Option String
  state : Option String
  pincode : Option String
  isDefault : Option Bool
deriving DecidableEq

/-- Field-wise application of an update body to a stored address
(`findByIdAndUpdate(id, updateData)`): the controller deletes `isDefault`
from `updateData` first (src/controllers/addressController.js:89-90), so
`isDefault` is never touched; all other supplied fields are set. -/
def applyAddressUpdate (a : Address) (req : AddressUpdateReq) : Address :=
  { a with
      userId := req.userId.getD a.userId
      type := req.type.getD a.type
      name := req.name.getD a.name
      phone := req.phone.getD a.phone
      addressLine1 := req.addressLine1.getD a.addressLine1
      addressLine2 := match req.addressLine2 with | none => a.addressLine2 | some s => some s
      landmark := match req.landmark with | none => a.landmark | some s => some s
      city := req.city.getD a.city
      state := req.state.getD a.state
      pincode := req.pincode.getD a.pincode }

/-- `addAddress` (src/controllers/addressController.js:27-60).  The first
address of a user is forced default; `Address.create` runs the `pre(save)`
hook before the insert. -/
def addAddress (db : DB) (uid : Nat) (req : AddressReq) : HResult Address :=
  let existingAddresses := (db.addresses.filter (fun a => a.userId == uid)).length
  let isDef := if existingAddresses = 0 then true else req.isDefault.getD false
  let newAddr : Address :=
    { id := db.nextId
      userId := uid
      type := req.type
      name := req.name
      phone := req.phone
      addressLine1 := req.addressLine1
      addressLine2 := req.addressLine2
      landmark := req.landmark
      city := req.city
      state := req.state
      pincode := req.pincode
      isDefault := isDef }
  let addrs := if isDef then unsetOtherDefaults db.addresses uid newAddr.id else db.addresses
  ({ db with addresses := addrs ++ [newAddr], nextId := db.nextId + 1 },
   Except.ok newAddr)

/-- `updateAddress` (src/controllers/addressController.js:66-107):
ownership-checked lookup, then `findByIdAndUpdate` with the body minus
`isDefault` (no save hook runs on this path). -/
def updateAddress (db : DB) (uid aid : Nat) (req : AddressUpdateReq) : HResult Unit :=
  match findAddressOwned db.addresses aid uid with
  | none => (db, Except.error ⟨404, "Address not found"⟩)
  | some _ =>
    ({ db with
        addresses := findByIdAndUpdate Address.id db.addresses aid
          (fun a => applyAddressUpdate a req) },
     Except.ok ())

/-- `deleteAddress` (src/controllers/addressController.js:113-149):
ownership-checked lookup; when the deleted address is default, the first
other address of the user (if any) is promoted by an assignment plus save
(whose `pre(save)` hook unsets every other default of the user); then the
document is removed. -/
def deleteAddress (db : DB) (uid aid : Nat) : HResult Unit :=
  match findAddressOwned db.addresses aid uid with
  | none => (db, Except.error ⟨404, "Address not found"⟩)
  | some address =>
    let afterPromote :=
      if address.isDefault then
        match db.addresses.find? (fun a => a.userId == uid && !(a.id == aid)) with
        | none => db.addresses
        | some other =>
          findByIdAndUpdate Address.id (unsetOtherDefaults db.addresses uid other.id)
            other.id (fun _ => { other with isDefault := true })
      else db.addresses
    ({ db with addresses := removeById Address.id afterPromote aid },
     Except.ok ())

/-- `setDefaultAddress` (src/controllers/addressController.js:155-187):
ownership-checked lookup; `updateMany` unsets every other default of the
user; then the target is assigned default and saved (its `pre(save)` hook
repeats the unset). -/
def setDefaultAddress (db : DB) (uid aid : Nat) : HResult Unit :=
  match findAddressOwned db.addresses aid uid with
  | none => (db, Except.error ⟨404, "Address not found"⟩)
  | some address =>
    let l1 := unsetOtherDefaults db.addresses uid aid
    let l2 := unsetOtherDefaults l1 uid aid
    ({ db with
        addresses := findByIdAndUpdate Address.id l2 aid
          (fun _ => { address with isDefault := true }) },
     Except.ok ())

/-- One address-collection operation of the claimed invariant: add, update,
delete, or set-default, each acting for the authenticated user it names. -/
inductive AddrOp where
  | add (uid : Nat) (req : AddressReq)
  | update (uid aid : Nat) (req : AddressUpdateReq)
  | delete (uid aid : Nat)
  | setDefault (uid aid : Nat)
deriving DecidableEq

/-- Store state after one address operation (the handler's response payload
is irrelevant to the invariant). -/
def applyAddrOp (db : DB) : AddrOp → DB
  | AddrOp.add uid req => (addAddress db uid req).1
  | AddrOp.update uid aid req => (updateAddress db uid aid req).1
  | AddrOp.delete uid aid => (deleteAddress db uid aid).1
  | AddrOp.setDefault uid aid => (setDefaultAddress db uid aid).1

/-- Number of addresses of user `uid` marked default. -/
def defaultCount (l : List Address) (uid : Nat) : Nat :=
  l.countP (fun a => a.userId == uid && a.isDefault)

/-- Health of the address collection as the store maintains it: unique
document ids, ids below the fresh-id supply, and at most one default
address per user. -/
def AddrInv (db : DB) : Prop :=
  (db.addresses.map Address.id).Nodup
  ∧ (∀ a ∈ db.addresses, a.id < db.nextId)
  ∧ ∀ uid, defaultCount db.addresses uid ≤ 1

/-! ## Signup (src/controllers/authController.js) -/

/-- Signup request body (`POST /api/auth/signup`). -/
structure SignupReq where
  name : String
  email : String
  phone : String
  password : String
  addressLine1 : String
  addressLine2 : Option String
  landmark : Option String
  city : String
  state : String
  pincode : String
  addressType : String
deriving DecidableEq

/-- `validatePassword(password).isValid` (src/unnamed/part_002): a falsy
(empty) password is rejected outright; otherwise the length must lie in
[6, 128]. -/
def validatePasswordIsValid (password : String) : Bool :=
  if password = "" then false
  else !(password.length < 6) && !(password.length > 128)

/-- `signup` (src/controllers/authController.js:11-103): password strength
check, then duplicate lookup `findOne({$or: [{email}, {phone}]})` — when a
user matches, the error field is `Email` if the matched user's email equals
the supplied one and `Phone number` otherwise; on no match, the user and a
default address are created.  Credential hashing, token issuance and the
schema's email lowercasing are external to the verified properties and
omitted. -/
def signup (db : DB) (req : SignupReq) : HResult User :=
  if !(validatePasswordIsValid req.password) then
    (db, Except.error ⟨400, "Password validation failed"⟩)
  else
    match db.users.find? (fun u => u.email == req.email || u.phone == req.phone) with
    | some existingUser =>
      let fieldName := if existingUser.email == req.email then "Email" else "Phone number"
      (db, Except.error ⟨400, fieldName ++ " is already registered"⟩)
    | none =>
      let user : User :=
        { id := db.nextId
          name := req.name
          email := req.email
          phone := req.phone
          password := req.password
          totalOrders := 0
          totalSpent := 0
          isActive := true }
      let address : Address :=
        { id := db.nextId + 1
          userId := user.id
          type := req.addressType
          name := req.name
          phone := req.phone
          addressLine1 := req.addressLine1
          addressLine2 := req.addressLine2
          landmark := req.landmark
          city := req.city
          state := req.state
          pincode := req.pincode
          isDefault := true }
      ({ db with
          users := db.users ++ [user]
          addresses := unsetOtherDefaults db.addresses user.id address.id ++ [address]
          nextId := db.nextId + 2 },
       Except.ok user)

/-! ## Generic collection lemmas -/

theorem mem_findByIdAndUpdate {α : Type} (key : α → Nat) (f : α → α) (k : Nat)
    (l : List α) (b : α) (hb : b ∈ findByIdAndUpdate key l k f) :
    b ∈ l ∨ ∃ a, a ∈ l ∧ key a = k ∧ b = f a := by
  induction l with
  | nil => simp [findByIdAndUpdate] at hb
  | cons x xs ih =>
    by_cases h : key x = k
    · simp [findByIdAndUpdate, h] at hb
      rcases hb with hb | hb
      · exact Or.inr ⟨x, by simp, h, hb⟩
      · exact Or.inl (List.mem_cons_of_mem _ hb)
    · simp [findByIdAndUpdate, h] at hb
      rcases hb with hb | hb
      · exact Or.inl (by simp [hb])
      · rcases ih hb with h2 | ⟨a, ha, hk, hfa⟩
        · exact Or.inl (List.mem_cons_of_mem _ h2)
        · exact Or.inr ⟨a, List.mem_cons_of_mem _ ha, hk, hfa⟩

theorem map_key_findByIdAndUpdate {α : Type} (key : α → Nat) (f : α → α) (k : Nat)
    (hf : ∀ x, key x = k → key (f x) = k) (l : List α) :
    (findByIdAndUpdate key l k f).map key = l.map key := by
  induction l with
  | nil => rfl
  | cons x xs ih =>
    by_cases h : key x = k
    · simp [findByIdAndUpdate, h, hf x h]
    · simp [findByIdAndUpdate, h, ih]

theorem countP_findByIdAndUpdate_le {α : Type} (key : α → Nat) (f : α → α) (k : Nat)
    (p : α → Bool) (hp : ∀ x, key x = k → p (f x) = true → p x = true) (l : List α) :
    (findByIdAndUpdate key l k f).countP p ≤ l.countP p := by
  induction l with
  | nil => simp [findByIdAndUpdate]
  | cons x xs ih =>
    by_cases h : key x = k
    · simp only [findByIdAndUpdate, h, beq_self_eq_true, if_true, List.countP_cons]
      by_cases hfx : p (f x) = true
      · simp [hfx, hp x h hfx]
      · simp only [Bool.not_eq_true] at hfx
        simp only [hfx, Bool.false_eq_true, if_false]
        omega
    · simp only [findByIdAndUpdate, beq_iff_eq, h, if_false, List.countP_cons]
      omega

theorem removeById_sublist {α : Type} (key : α → Nat) (k : Nat) (l : List α) :
    (removeById key l k).Sublist l := by
  induction l with
  | nil => simp [removeById]
  | cons x xs ih =>
    by_cases h : key x = k
    · simp only [removeById, h, beq_self_eq_true, if_true]
      exact List.sublist_cons_self x xs
    · simpa [removeById, h] using ih.cons₂ x

theorem findBy_findByIdAndUpdate_self {α : Type} (key : α → Nat) (f : α → α) (k : Nat)
    (hf : ∀ x, key x = k → key (f x) = k) (l : List α) :
    findBy key k (findByIdAndUpdate key l k f) = (findBy key k l).map f := by
  induction l with
  | nil => rfl
  | cons x xs ih =>
    by_cases h : key x = k
    · simp [findBy, findByIdAndUpdate, List.find?_cons, h, hf x h]
    · simp only [findByIdAndUpdate, beq_iff_eq, h, if_false]
      simpa [findBy, List.find?_cons, h] using ih

theorem findBy_findByIdAndUpdate_ne {α : Type} (key : α → Nat) (f : α → α) (k k' : Nat)
    (hf : ∀ x, key x = k → key (f x) = k) (hne : k' ≠ k) (l : List α) :
    findBy key k' (findByIdAndUpdate key l k f) = findBy key k' l := by
  induction l with
  | nil => rfl
  | cons x xs ih =>
    by_cases h : key x = k
    · have h1 : ¬(key x = k') := fun hx => hne (hx ▸ h ▸ rfl) |>.elim
      have h2 : ¬(key (f x) = k') := fun hx => (hne (hx ▸ (hf x h) ▸ rfl)).elim
      have h3 : k ≠ k' := Ne.symm hne
      simp [findBy, findByIdAndUpdate, List.find?_cons, h, h1, h2, h3]
    · simp only [findByIdAndUpdate, beq_iff_eq, h, if_false]
      by_cases h3 : key x = k'
      · simp [findBy, List.find?_cons, h3]
      · simpa [findBy, List.find?_cons, h3] using ih

theorem find?_append_of_none {α : Type} (p : α → Bool) (l1 l2 : List α)
    (h : ∀ x ∈ l1, p x = false) :
    (l1 ++ l2).find? p = l2.find? p := by
  induction l1 with
  | nil => rfl
  | cons x xs ih =>
    have hx := h x (by simp)
    simp only [List.cons_append, List.find?_cons, hx]
    exact ih (fun y hy => h y (by simp [hy]))

/-! ## Stock bookkeeping lemmas -/

/-- Total quantity the order's snapshot items request of product `pid`. -/
def orderedQty : List OrderItem → Nat → Nat
  | [], _ => 0
  | item :: rest, pid =>
    (if item.productId = pid then item.quantity else 0) + orderedQty rest pid

/-- Total quantity the request items ask of product `pid`. -/
def requestedQty : List ReqItem → Nat → Nat
  | [], _ => 0
  | item :: rest, pid =>
    (if item.productId = pid then item.quantity else 0) + requestedQty rest pid

theorem findBy_updateStockLoop (items : List OrderItem) (ps : List Product) (pid : Nat) :
    findBy Product.id pid (updateStockLoop ps items)
      = (findBy Product.id pid ps).map
          (fun p => { p with
              stockCount := p.stockCount - (orderedQty items pid : Int)
              totalSold := p.totalSold + (orderedQty items pid : Int) }) := by
  induction items generalizing ps with
  | nil =>
    cases hp : findBy Product.id pid ps <;> simp [updateStockLoop, orderedQty, hp]
  | cons item rest ih =>
    have hstep : updateStockLoop ps (item :: rest)
        = updateStockLoop
            (findByIdAndUpdate Product.id ps item.productId
              (fun p => { p with stockCount := p.stockCount - (item.quantity : Int)
                                 totalSold := p.totalSold + (item.quantity : Int) }))
            rest := rfl
    rw [hstep, ih]
    by_cases h : item.productId = pid
    · subst h
      rw [findBy_findByIdAndUpdate_self Product.id
            (fun p => { p with stockCount := p.stockCount - (item.quantity : Int)
                               totalSold := p.totalSold + (item.quantity : Int) })
            item.productId (fun x hx => hx)]
      cases hp : findBy Product.id item.productId ps
      · simp
      · simp only [Option.map_some', Option.some.injEq, orderedQty, if_pos rfl]
        simp only [Product.mk.injEq, true_and, and_true]
        constructor <;> push_cast <;> ring_nf
    · rw [findBy_findByIdAndUpdate_ne Product.id
            (fun p => { p with stockCount := p.stockCount - (item.quantity : Int)
                               totalSold := p.totalSold + (item.quantity : Int) })
            item.productId pid (fun x hx => hx) (fun hx => h hx.symm)]
      simp [orderedQty, h]

theorem findBy_restoreStockLoop (items : List OrderItem) (ps : List Product) (pid : Nat) :
    findBy Product.id pid (restoreStockLoop ps items)
      = (findBy Product.id pid ps).map
          (fun p => { p with
              stockCount := p.stockCount + (orderedQty items pid : Int)
              totalSold := p.totalSold - (orderedQty items pid : Int) }) := by
  induction items generalizing ps with
  | nil =>
    cases hp : findBy Product.id pid ps <;> simp [restoreStockLoop, orderedQty, hp]
  | cons item rest ih =>
    have hstep : restoreStockLoop ps (item :: rest)
        = restoreStockLoop
            (findByIdAndUpdate Product.id ps item.productId
              (fun p => { p with stockCount := p.stockCount + (item.quantity : Int)
                                 totalSold := p.totalSold - (item.quantity : Int) }))
            rest := rfl
    rw [hstep, ih]
    by_cases h : item.productId = pid
    · subst h
      rw [findBy_findByIdAndUpdate_self Product.id
            (fun p => { p with stockCount := p.stockCount + (item.quantity : Int)
                               totalSold := p.totalSold - (item.quantity : Int) })
            item.productId (fun x hx => hx)]
      cases hp : findBy Product.id item.productId ps
      · simp
      · simp only [Option.map_some', Option.some.injEq, orderedQty, if_pos rfl]
        simp only [Product.mk.injEq, true_and, and_true]
        constructor <;> push_cast <;> ring_nf
    · rw [findBy_findByIdAndUpdate_ne Product.id
            (fun p => { p with stockCount := p.stockCount + (item.quantity : Int)
                               totalSold := p.totalSold - (item.quantity : Int) })
            item.productId pid (fun x hx => hx) (fun hx => h hx.symm)]
      simp [orderedQty, h]

/-- Round trip: the cancellation restore loop is the exact inverse of the
placement decrement loop, product by product. -/
theorem findBy_restore_update (items : List OrderItem) (ps : List Product) (pid : Nat) :
    findBy Product.id pid (restoreStockLoop (updateStockLoop ps items) items)
      = findBy Product.id pid ps := by
  rw [findBy_restoreStockLoop, findBy_updateStockLoop]
  cases hp : findBy Product.id pid ps with
  | none => simp
  | some p =>
    cases p
    simp only [Option.map_some', Option.some.injEq, Product.mk.injEq, true_and, and_true]
    constructor <;> omega

/-! ## Item validation lemmas -/

theorem findBy_eq_key {α : Type} (key : α → Nat) (k : Nat) (l : List α) (a : α)
    (h : findBy key k l = some a) : key a = k := by
  simpa using List.find?_some h

/-- A request item passes the per-item checks of `createOrder` against the
current catalog: the product exists, is active, in stock, and has at least
the requested quantity. -/
def itemOk (ps : List Product) (item : ReqItem) : Bool :=
  match findBy Product.id item.productId ps with
  | none => false
  | some p => p.isActive && p.inStock && !(p.stockCount < (item.quantity : Int))

/-- Sum over request items of current catalog price times quantity. -/
def catalogTotal (ps : List Product) : List ReqItem → Nat
  | [] => 0
  | item :: rest =>
    (match findBy Product.id item.productId ps with
     | none => 0
     | some p => p.price) * item.quantity + catalogTotal ps rest

theorem validateItems_isOk (ps : List Product) (items : List ReqItem)
    (h : ∀ item ∈ items, itemOk ps item = true) :
    ∃ pr, validateItems ps items = Except.ok pr := by
  induction items with
  | nil => exact ⟨([], 0), rfl⟩
  | cons item rest ih =>
    have hitem := h item (by simp)
    obtain ⟨⟨its, t⟩, hpr⟩ := ih (fun j hj => h j (by simp [hj]))
    rw [itemOk] at hitem
    cases hfind : findBy Product.id item.productId ps with
    | none => rw [hfind] at hitem; simp at hitem
    | some product =>
      rw [hfind] at hitem
      simp only [Bool.and_eq_true, Bool.not_eq_true'] at hitem
      obtain ⟨⟨hact, hstk⟩, hqty⟩ := hitem
      have hq : ¬(product.stockCount < (item.quantity : Int)) := by simpa using hqty
      refine ⟨({ productId := product.id
                 name := product.name
                 quantity := item.quantity
                 price := product.price
                 image := product.images.head?
                 unit := product.unit
                 variant := jsOrEmpty item.variant } :: its,
               product.price * item.quantity + t), ?_⟩
      simp only [validateItems, hfind, hact, hstk, Bool.not_true, Bool.or_self,
        Bool.false_eq_true, if_false, if_neg hq, hpr]

theorem validateItems_ok_spec (ps : List Product) (items : List ReqItem)
    (ois : List OrderItem) (total : Nat)
    (h : validateItems ps items = Except.ok (ois, total)) :
    total = catalogTotal ps items
      ∧ (∀ pid, orderedQty ois pid = requestedQty items pid)
      ∧ (ois = [] ↔ items = []) := by
  induction items generalizing ois total with
  | nil =>
    rw [validateItems] at h
    injection h with h
    injection h with h1 h2
    subst h1; subst h2
    refine ⟨rfl, fun pid => rfl, by simp⟩
  | cons item rest ih =>
    simp only [validateItems, List.cons.injEq] at h
    cases hfind : findBy Product.id item.productId ps with
    | none => rw [hfind] at h; exact Except.noConfusion h
    | some product =>
      simp only [hfind] at h
      by_cases hflags : (!product.isActive || !product.inStock) = true
      · rw [if_pos hflags] at h; exact Except.noConfusion h
      · rw [if_neg hflags] at h
        by_cases hqty : product.stockCount < (item.quantity : Int)
        · rw [if_pos hqty] at h; exact Except.noConfusion h
        · rw [if_neg hqty] at h
          cases hrec : validateItems ps rest with
          | error e => rw [hrec] at h; exact Except.noConfusion h
          | ok pr =>
            obtain ⟨its, t⟩ := pr
            simp only [hrec, Except.ok.injEq, Prod.mk.injEq] at h
            obtain ⟨h1, h2⟩ := h
            subst h1; subst h2
            obtain ⟨ht, hq, hne⟩ := ih its t hrec
            refine ⟨?_, ?_, by simp⟩
            · rw [catalogTotal, hfind, ht]
            · intro pid
              have hid : product.id = item.productId := findBy_eq_key _ _ _ _ hfind
              rw [orderedQty, requestedQty, hq pid, hid]

theorem validateItems_error_first (ps : List Product) (pre : List ReqItem)
    (item : ReqItem) (post : List ReqItem)
    (hpre : ∀ j ∈ pre, itemOk ps j = true) (hbad : itemOk ps item = false) :
    ∃ e, validateItems ps (pre ++ item :: post) = Except.error e
      ∧ e.status = 400
      ∧ ∀ p, findBy Product.id item.productId ps = some p →
          (e.message = "Product " ++ jsNameOrUnknown (some p) ++ " is not available"
            ∨ e.message = "Insufficient stock for " ++ p.name ++ ". Available: "
                ++ toString p.stockCount) := by
  induction pre with
  | nil =>
    rw [itemOk] at hbad
    cases hfind : findBy Product.id item.productId ps with
    | none =>
      refine ⟨⟨400, "Product " ++ jsNameOrUnknown none ++ " is not available"⟩, ?_, rfl, ?_⟩
      · simp only [List.nil_append, validateItems, hfind]
      · intro p hp
        exact Option.noConfusion hp
    | some product =>
      rw [hfind] at hbad
      by_cases hflags : (!product.isActive || !product.inStock) = true
      · refine ⟨⟨400, "Product " ++ jsNameOrUnknown (some product) ++ " is not available"⟩,
          ?_, rfl, ?_⟩
        · simp only [List.nil_append, validateItems, hfind, if_pos hflags]
        · intro p hp
          injection hp with hp
          subst hp
          exact Or.inl rfl
      · have hqty : product.stockCount < (item.quantity : Int) := by
          simp only [Bool.or_eq_true, Bool.not_eq_true'] at hflags
          push_neg at hflags
          simp only [hflags.1, hflags.2, Bool.true_and, Bool.not_eq_false'] at hbad
          simpa using hbad
        refine ⟨⟨400, "Insufficient stock for " ++ product.name ++ ". Available: "
            ++ toString product.stockCount⟩, ?_, rfl, ?_⟩
        · simp only [List.nil_append, validateItems, hfind, if_neg hflags, if_pos hqty]
        · intro p hp
          injection hp with hp
          subst hp
          exact Or.inr rfl
  | cons j pre ih =>
    have hj := hpre j (by simp)
    obtain ⟨e, he, hs, hm⟩ := ih (fun x hx => hpre x (by simp [hx]))
    rw [itemOk] at hj
    cases hfind : findBy Product.id j.productId ps with
    | none => rw [hfind] at hj; simp at hj
    | some product =>
      rw [hfind] at hj
      simp only [Bool.and_eq_true, Bool.not_eq_true'] at hj
      obtain ⟨⟨hact, hstk⟩, hqty⟩ := hj
      have hq : ¬(product.stockCount < (j.quantity : Int)) := by simpa using hqty
      refine ⟨e, ?_, hs, hm⟩
      simp only [List.cons_append, validateItems, hfind, hact, hstk, Bool.not_true,
        Bool.or_self, Bool.false_eq_true, if_false, if_neg hq]
      have happ : pre.append (item :: post) = pre ++ item :: post := rfl
      rw [happ, he]

/-- The fields of a request item that `createOrder` reads: everything except
the client-supplied price. -/
def stripPrice (item : ReqItem) : Nat × Nat × Option String :=
  (item.productId, item.quantity, item.variant)

theorem validateItems_congr (ps : List Product) (items1 items2 : List ReqItem)
    (h : items1.map stripPrice = items2.map stripPrice) :
    validateItems ps items1 = validateItems ps items2 := by
  induction items1 generalizing items2 with
  | nil =>
    cases items2 with
    | nil => rfl
    | cons b bs => simp at h
  | cons a as ih =>
    cases items2 with
    | nil => simp at h
    | cons b bs =>
      simp only [List.map_cons, List.cons.injEq] at h
      obtain ⟨hab, hrest⟩ := h
      rw [stripPrice, stripPrice, Prod.mk.injEq, Prod.mk.injEq] at hab
      obtain ⟨h1, h2, h3⟩ := hab
      rw [validateItems, validateItems, h1, h2, h3, ih bs hrest]

/-! ## Placement and reorder result characterizations -/

theorem createOrder_ok_dest (db : DB) (uid : Nat) (req : CreateOrderReq) (db1 : DB) (o : Order)
    (h : createOrder db uid req = (db1, Except.ok o)) :
    ∃ addr ois total,
      findAddressOwned db.addresses req.deliveryAddressId uid = some addr
      ∧ validateItems db.products req.items = Except.ok (ois, total)
      ∧ o.items = ois
      ∧ o.totalAmount = total
      ∧ o.id = db.nextId
      ∧ o.userId = uid
      ∧ o.orderNumber = generateOrderNumber db.orders.length
      ∧ o.status = OrderStatus.pending
      ∧ o.canCancel = true
      ∧ o.deliveryFee = (if 500 ≤ total then 0 else 40)
      ∧ o.discount = 0
      ∧ o.finalAmount = total + (if 500 ≤ total then 0 else 40) - 0
      ∧ db1.orders = db.orders ++ [o]
      ∧ db1.products = updateStockLoop db.products ois
      ∧ db1.nextId = db.nextId + 1 := by
  rw [createOrder] at h
  cases hfind : findAddressOwned db.addresses req.deliveryAddressId uid with
  | none => rw [hfind] at h; simp at h
  | some addr =>
    simp only [hfind] at h
    cases hval : validateItems db.products req.items with
    | error e => rw [hval] at h; simp at h
    | ok pr =>
      obtain ⟨ois, total⟩ := pr
      simp only [hval] at h
      by_cases hemp : ois.isEmpty = true
      · rw [if_pos hemp] at h; simp at h
      · rw [if_neg hemp] at h
        rw [Prod.mk.injEq] at h
        obtain ⟨hdb, ho⟩ := h
        injection ho with ho
        subst ho
        subst hdb
        exact ⟨addr, ois, total, rfl, rfl, rfl, rfl, rfl, rfl, rfl, rfl, rfl, rfl,
          rfl, rfl, rfl, rfl, rfl⟩

theorem createOrder_error_dest (db : DB) (uid : Nat) (req : CreateOrderReq) (db1 : DB)
    (e : ErrResp) (h : createOrder db uid req = (db1, Except.error e)) :
    db1 = db
      ∧ (findAddressOwned db.addresses req.deliveryAddressId uid = none
          ∨ (∃ e2, validateItems db.products req.items = Except.error e2 ∧ e = e2)
          ∨ ∃ total, validateItems db.products req.items = Except.ok ([], total)) := by
  rw [createOrder] at h
  cases hfind : findAddressOwned db.addresses req.deliveryAddressId uid with
  | none =>
    rw [hfind] at h
    rw [Prod.mk.injEq] at h
    exact ⟨h.1.symm, Or.inl rfl⟩
  | some addr =>
    simp only [hfind] at h
    cases hval : validateItems db.products req.items with
    | error e2 =>
      rw [hval] at h
      rw [Prod.mk.injEq] at h
      obtain ⟨hdb, he⟩ := h
      injection he with he
      exact ⟨hdb.symm, Or.inr (Or.inl ⟨e2, rfl, he.symm⟩)⟩
    | ok pr =>
      obtain ⟨ois, total⟩ := pr
      simp only [hval] at h
      by_cases hemp : ois.isEmpty = true
      · have hnil : ois = [] := by
          cases ois with
          | nil => rfl
          | cons x xs => simp [List.isEmpty] at hemp
        rw [if_pos hemp] at h
        rw [Prod.mk.injEq] at h
        subst hnil
        exact ⟨h.1.symm, Or.inr (Or.inr ⟨total, rfl⟩)⟩
      · rw [if_neg hemp] at h; simp at h

theorem reorderOrder_ok_dest (db : DB) (uid oid : Nat) (db1 : DB) (o : Order)
    (h : reorderOrder db uid oid = (db1, Except.ok o)) :
    ∃ orig,
      findOrderOwned db.orders oid uid = some orig
      ∧ orig.canReorder = true
      ∧ o.items = (revalidateItems db.products orig.items).1
      ∧ o.items ≠ []
      ∧ o.totalAmount = (revalidateItems db.products orig.items).2.1
      ∧ o.orderNumber = generateOrderNumber db.orders.length
      ∧ o.deliveryFee = (if 500 ≤ o.totalAmount then 0 else 40)
      ∧ o.discount = 0
      ∧ o.finalAmount = o.totalAmount + o.deliveryFee - 0
      ∧ o.deliveryAddress = orig.deliveryAddress
      ∧ o.paymentMethod = orig.paymentMethod := by
  rw [reorderOrder] at h
  cases hfind : findOrderOwned db.orders oid uid with
  | none => rw [hfind] at h; simp at h
  | some orig =>
    simp only [hfind] at h
    by_cases hcr : orig.canReorder = true
    · simp only [hcr, Bool.not_true, Bool.false_eq_true, if_false] at h
      by_cases hemp : (revalidateItems db.products orig.items).1.isEmpty = true
      · rw [if_pos hemp] at h; simp at h
      · rw [if_neg hemp] at h
        rw [Prod.mk.injEq] at h
        obtain ⟨hdb, ho⟩ := h
        injection ho with ho
        subst ho
        refine ⟨orig, rfl, hcr, rfl, ?_, rfl, rfl, rfl, rfl, rfl, rfl, rfl⟩
        intro hnil
        have hx : (revalidateItems db.products orig.items).1 = [] := hnil
        rw [hx] at hemp
        exact hemp rfl
    · have hcr2 : orig.canReorder = false := by
        cases hx : orig.canReorder
        · rfl
        · exact absurd hx hcr
      rw [hcr2] at h
      simp at h

theorem createOrder_succeeds (db : DB) (uid : Nat) (req : CreateOrderReq)
    (haddr : ∃ addr, findAddressOwned db.addresses req.deliveryAddressId uid = some addr)
    (hne : req.items ≠ [])
    (hok : ∀ item ∈ req.items, itemOk db.products item = true) :
    ∃ db1 o, createOrder db uid req = (db1, Except.ok o) := by
  obtain ⟨addr, haddr⟩ := haddr
  cases hres : createOrder db uid req with
  | mk db1 res =>
    cases res with
    | ok o => exact ⟨db1, o, rfl⟩
    | error e =>
      exfalso
      obtain ⟨-, hcase⟩ := createOrder_error_dest _ _ _ _ _ hres
      rcases hcase with hnone | ⟨e2, he2, -⟩ | ⟨total, ht⟩
      · rw [haddr] at hnone
        exact Option.noConfusion hnone
      · obtain ⟨pr, hpr⟩ := validateItems_isOk db.products req.items hok
        rw [hpr] at he2
        exact Except.noConfusion he2
      · obtain ⟨-, -, hiff⟩ := validateItems_ok_spec _ _ _ _ ht
        exact hne (hiff.mp rfl)

/-! ## Order-number formatting lemmas -/

theorem zeros_length (n : Nat) : (zeros n).length = n := by
  induction n with
  | zero => rfl
  | succ n ih =>
    rw [zeros, String.length_append, ih]
    have h1 : ("0" : String).length = 1 := rfl
    rw [h1]
    omega

theorem padStart_le_length (n : Nat) (s : String) : n ≤ (padStart n s).length := by
  rw [padStart, String.length_append, zeros_length]
  omega

/-! ## Claim theorems -/

/-- C1.  Every order persisted by placement or reorder satisfies
`finalAmount = totalAmount + deliveryFee - discount`, with `discount` always
0 and `deliveryFee` 0 exactly when `totalAmount` is at least 500 and 40
otherwise; in particular a 450 total gives fee 40 and final 490, and a 500
total gives fee 0 and final 500. -/
theorem c1_finalAmount_invariant (db : DB) (uid : Nat) (db1 : DB) (o : Order)
    (h : (∃ req, createOrder db uid req = (db1, Except.ok o))
        ∨ ∃ oid, reorderOrder db uid oid = (db1, Except.ok o)) :
    o.finalAmount = o.totalAmount + o.deliveryFee - o.discount
    ∧ o.discount = 0
    ∧ o.deliveryFee = (if 500 ≤ o.totalAmount then 0 else 40)
    ∧ (o.totalAmount = 450 → o.deliveryFee = 40 ∧ o.finalAmount = 490)
    ∧ (o.totalAmount = 500 → o.deliveryFee = 0 ∧ o.finalAmount = 500) := by
  have base : o.discount = 0
      ∧ o.deliveryFee = (if 500 ≤ o.totalAmount then 0 else 40)
      ∧ o.finalAmount = o.totalAmount + o.deliveryFee - o.discount := by
    rcases h with ⟨req, h⟩ | ⟨oid, h⟩
    · obtain ⟨addr, ois, total, h1, h2, h3, htot, h5, h6, h7, h8, h9, hfee, hdisc, hfin,
        h13, h14, h15⟩ := createOrder_ok_dest _ _ _ _ _ h
      refine ⟨hdisc, ?_, ?_⟩
      · rw [hfee, htot]
      · rw [hfin, htot, hfee, hdisc]
    · obtain ⟨orig, hfind, hcr, hitems, hne2, htot, honum, hfee, hdisc, hfin, hda, hpm⟩ :=
        reorderOrder_ok_dest _ _ _ _ _ h
      exact ⟨hdisc, hfee, by rw [hfin, hdisc]⟩
  obtain ⟨hdisc, hfee, hfin⟩ := base
  refine ⟨hfin, hdisc, hfee, ?_, ?_⟩
  · intro h450
    have hf : o.deliveryFee = 40 := by rw [hfee, h450]; decide
    exact ⟨hf, by rw [hfin, hdisc, h450, hf]⟩
  · intro h500
    have hf : o.deliveryFee = 0 := by rw [hfee, h500]; decide
    exact ⟨hf, by rw [hfin, hdisc, h500, hf]⟩

/-- C10.  Every order persisted by placement or reorder is numbered, at save
time, `HRA` followed by (count of order documents + 1) zero-padded to at
least six digits; the padded digit block is at least six characters wide.
The request types carry no order-number field, so the client cannot supply
one. -/
theorem c10_orderNumber_format (db : DB) (uid : Nat) (db1 : DB) (o : Order)
    (h : (∃ req, createOrder db uid req = (db1, Except.ok o))
        ∨ ∃ oid, reorderOrder db uid oid = (db1, Except.ok o)) :
    o.orderNumber = "HRA" ++ padStart 6 (toString (db.orders.length + 1))
    ∧ 6 ≤ (padStart 6 (toString (db.orders.length + 1))).length := by
  refine ⟨?_, padStart_le_length 6 _⟩
  rcases h with ⟨req, h⟩ | ⟨oid, h⟩
  · obtain ⟨addr, ois, total, h1, h2, h3, htot, h5, h6, honum, h8, h9, hfee, hdisc, hfin,
      h13, h14, h15⟩ := createOrder_ok_dest _ _ _ _ _ h
    rw [honum, generateOrderNumber]
  · obtain ⟨orig, hfind, hcr, hitems, hne2, htot, honum, hfee, hdisc, hfin, hda, hpm⟩ :=
      reorderOrder_ok_dest _ _ _ _ _ h
    rw [honum, generateOrderNumber]

/-! ## Concrete sample store for witnesses -/

/-- Sample catalog product: 100 per kg, 10 in stock. -/
def wProduct : Product := ⟨1, "Apple", 100, true, true, 10, 0, ["apple.png"], "kg"⟩

/-- Second sample product: 450 per kg, 5 in stock. -/
def wRice : Product := ⟨2, "Rice", 450, true, true, 5, 2, [], "kg"⟩

/-- Sample address of user 7. -/
def wAddress : Address :=
  ⟨5, 7, "home", "Asha", "9876543210", "12 MG Road", none, none, "Chennai", "TN", "600001", true⟩

/-- Sample user. -/
def wUser : User := ⟨7, "Asha", "asha@example.com", "9876543210", "secret1", 0, 0, true⟩

/-- Sample store. -/
def wDB : DB := ⟨[wProduct, wRice], [], [wUser], [wAddress], [], [], 100⟩

/-- Sample create-order request: 2 kg of product 1, client-supplied price 999
(ignored by the handler). -/
def wReq : CreateOrderReq := ⟨[⟨1, 2, 999, none⟩], 5, PaymentMethod.cod, none, none⟩

/-- The order `createOrder wDB 7 wReq` persists. -/
def wOrder : Order :=
  { id := 100
    userId := 7
    orderNumber := "HRA000001"
    status := OrderStatus.pending
    items := [{ productId := 1, name := "Apple", quantity := 2, price := 100,
                image := some "apple.png", unit := "kg", variant := "" }]
    totalAmount := 200
    deliveryFee := 40
    discount := 0
    finalAmount := 240
    deliveryAddress := { name := "Asha", phone := "9876543210",
                         address := "12 MG Road, Chennai, TN - 600001",
                         landmark := none, city := "Chennai", state := "TN",
                         pincode := "600001" }
    paymentMethod := PaymentMethod.cod
    paymentStatus := "pending"
    orderTracking := [{ status := "Order Placed",
                        description := "Your order has been placed successfully",
                        completed := true }]
    canCancel := true
    canReorder := false
    canRate := false
    rating := none
    review := none
    promoCode := none
    specialInstructions := none }

/-- Store state after the sample placement. -/
def wDB1 : DB := (createOrder wDB 7 wReq).1

theorem wCreate_eq : createOrder wDB 7 wReq = (wDB1, Except.ok wOrder) := rfl

/-- Witness for C1: the sample placement satisfies the amount invariant. -/
theorem c1_finalAmount_witness :
    createOrder wDB 7 wReq = (wDB1, Except.ok wOrder)
    ∧ (wOrder.finalAmount = wOrder.totalAmount + wOrder.deliveryFee - wOrder.discount
       ∧ wOrder.discount = 0
       ∧ wOrder.deliveryFee = (if 500 ≤ wOrder.totalAmount then 0 else 40)
       ∧ (wOrder.totalAmount = 450 → wOrder.deliveryFee = 40 ∧ wOrder.finalAmount = 490)
       ∧ (wOrder.totalAmount = 500 → wOrder.deliveryFee = 0 ∧ wOrder.finalAmount = 500)) :=
  ⟨wCreate_eq, c1_finalAmount_invariant wDB 7 wDB1 wOrder (Or.inl ⟨wReq, wCreate_eq⟩)⟩

/-- Witness for C10: the sample placement is numbered `HRA000001`. -/
theorem c10_orderNumber_witness :
    createOrder wDB 7 wReq = (wDB1, Except.ok wOrder)
    ∧ (wOrder.orderNumber = "HRA" ++ padStart 6 (toString (wDB.orders.length + 1))
       ∧ 6 ≤ (padStart 6 (toString (wDB.orders.length + 1))).length) :=
  ⟨wCreate_eq, c10_orderNumber_format wDB 7 wDB1 wOrder (Or.inl ⟨wReq, wCreate_eq⟩)⟩

/-- C8.  Order placement trusts only the catalog: two requests that agree on
everything except the client-supplied per-item price fields produce
identical results (hence the same `totalAmount`, `deliveryFee` and
`finalAmount`), and every successful placement's `totalAmount` is the sum of
current catalog price times quantity over the requested items. -/
theorem c8_price_field_untrusted (db : DB) (uid : Nat) (req1 req2 : CreateOrderReq)
    (hitems : req1.items.map stripPrice = req2.items.map stripPrice)
    (haid : req1.deliveryAddressId = req2.deliveryAddressId)
    (hpm : req1.paymentMethod = req2.paymentMethod)
    (hpc : req1.promoCode = req2.promoCode)
    (hsi : req1.specialInstructions = req2.specialInstructions) :
    createOrder db uid req1 = createOrder db uid req2
    ∧ ∀ db1 o, createOrder db uid req1 = (db1, Except.ok o) →
        o.totalAmount = catalogTotal db.products req1.items := by
  constructor
  · obtain ⟨items1, aid1, pm1, pc1, si1⟩ := req1
    obtain ⟨items2, aid2, pm2, pc2, si2⟩ := req2
    simp only at hitems haid hpm hpc hsi
    subst haid; subst hpm; subst hpc; subst hsi
    have hcongr := validateItems_congr db.products items1 items2 hitems
    simp only [createOrder, hcongr]
  · intro db1 o h
    obtain ⟨addr, ois, total, hfind, hval, hitems2, htot, hid, huid, honum, hstatus, hcc,
      hfee, hdisc, hfin, hords, hprods, hnext⟩ := createOrder_ok_dest _ _ _ _ _ h
    obtain ⟨ht, -, -⟩ := validateItems_ok_spec _ _ _ _ hval
    rw [htot, ht]

/-- Same request as `wReq` but with client-supplied price 1. -/
def wReqAlt : CreateOrderReq := ⟨[⟨1, 2, 1, none⟩], 5, PaymentMethod.cod, none, none⟩

/-- Witness for C8: changing the client-supplied price from 999 to 1 leaves
the placement result untouched, and the sample total is the catalog total. -/
theorem c8_price_field_witness :
    wReq.items.map stripPrice = wReqAlt.items.map stripPrice
    ∧ createOrder wDB 7 wReq = createOrder wDB 7 wReqAlt
    ∧ wOrder.totalAmount = catalogTotal wDB.products wReq.items :=
  ⟨by decide,
   (c8_price_field_untrusted wDB 7 wReq wReqAlt (by decide) rfl rfl rfl rfl).1,
   (c8_price_field_untrusted wDB 7 wReq wReqAlt (by decide) rfl rfl rfl rfl).2
     wDB1 wOrder wCreate_eq⟩

/-- C3.  When the delivery address belongs to the caller and every requested
item passes the catalog checks (product present, active, in stock, quantity
at most `stockCount`), placement succeeds and each product's `stockCount`
drops by exactly the total requested quantity while `totalSold` rises by the
same amount. -/
theorem c3_stock_decrement (db : DB) (uid : Nat) (req : CreateOrderReq)
    (haddr : ∃ addr, findAddressOwned db.addresses req.deliveryAddressId uid = some addr)
    (hne : req.items ≠ [])
    (hok : ∀ item ∈ req.items, itemOk db.products item = true) :
    ∃ db1 o, createOrder db uid req = (db1, Except.ok o)
      ∧ ∀ pid, findBy Product.id pid db1.products
          = (findBy Product.id pid db.products).map
              (fun p => { p with
                  stockCount := p.stockCount - (requestedQty req.items pid : Int)
                  totalSold := p.totalSold + (requestedQty req.items pid : Int) }) := by
  obtain ⟨db1, o, h⟩ := createOrder_succeeds db uid req haddr hne hok
  refine ⟨db1, o, h, ?_⟩
  obtain ⟨addr, ois, total, hfind, hval, hitems, htot, hid, huid, honum, hstatus, hcc,
    hfee, hdisc, hfin, hords, hprods, hnext⟩ := createOrder_ok_dest _ _ _ _ _ h
  obtain ⟨-, hq, -⟩ := validateItems_ok_spec _ _ _ _ hval
  intro pid
  rw [hprods, findBy_updateStockLoop]
  simp only [hq]

/-- Witness for C3: placing `wReq` (2 kg of product 1) takes product 1 from
stock 10 / sold 0 to stock 8 / sold 2. -/
theorem c3_stock_decrement_witness :
    findBy Product.id 1 wDB1.products
      = (findBy Product.id 1 wDB.products).map
          (fun p => { p with
              stockCount := p.stockCount - (requestedQty wReq.items 1 : Int)
              totalSold := p.totalSold + (requestedQty wReq.items 1 : Int) }) := by
  obtain ⟨db1, o, h, hstock⟩ := c3_stock_decrement wDB 7 wReq ⟨wAddress, by decide⟩
    (by decide) (by decide)
  have hdb : wDB1 = db1 := by
    rw [wCreate_eq] at h
    exact congrArg Prod.fst h
  rw [hdb]
  exact hstock 1

/-- C7.  A placement that fails validation mutates nothing: on any error the
store is returned unchanged; a foreign or unknown delivery address fails with
400 `Invalid delivery address`; and when the first failing item's product
exists but is inactive, out of stock or under-stocked, the 400 error names
that product. -/
theorem c7_placement_validation (db : DB) (uid : Nat) (req : CreateOrderReq) :
    (∀ db1 e, createOrder db uid req = (db1, Except.error e) → db1 = db)
    ∧ (findAddressOwned db.addresses req.deliveryAddressId uid = none →
        createOrder db uid req = (db, Except.error ⟨400, "Invalid delivery address"⟩))
    ∧ ∀ pre item post,
        req.items = pre ++ item :: post →
        (∀ j ∈ pre, itemOk db.products j = true) →
        itemOk db.products item = false →
        (∃ addr, findAddressOwned db.addresses req.deliveryAddressId uid = some addr) →
        ∃ e, createOrder db uid req = (db, Except.error e)
          ∧ e.status = 400
          ∧ ∀ p, findBy Product.id item.productId db.products = some p →
              (e.message = "Product " ++ jsNameOrUnknown (some p) ++ " is not available"
                ∨ e.message = "Insufficient stock for " ++ p.name ++ ". Available: "
                    ++ toString p.stockCount) := by
  refine ⟨?_, ?_, ?_⟩
  · intro db1 e h
    exact (createOrder_error_dest _ _ _ _ _ h).1
  · intro hnone
    simp only [createOrder, hnone]
  · intro pre item post hsplit hpre hbad haddr
    obtain ⟨addr, haddr⟩ := haddr
    obtain ⟨e, he, hs, hm⟩ := validateItems_error_first db.products pre item post hpre hbad
    rw [← hsplit] at he
    refine ⟨e, ?_, hs, hm⟩
    simp only [createOrder, haddr, he]

/-- One-item request exceeding product 1's stock. -/
def wBadItem : ReqItem := ⟨1, 999, 0, none⟩

/-- Over-stock request used by the C7 witness. -/
def wBadReq : CreateOrderReq := ⟨[wBadItem], 5, PaymentMethod.cod, none, none⟩

/-- Witness for C7: the over-stock request leaves the store untouched. -/
theorem c7_placement_validation_witness : (createOrder wDB 7 wBadReq).1 = wDB := by
  obtain ⟨e, he, hs, hm⟩ := (c7_placement_validation wDB 7 wBadReq).2.2 [] wBadItem []
    rfl (by simp) (by decide) ⟨wAddress, by decide⟩
  exact congrArg Prod.fst he

/-! ## Cancellation -/

theorem cancelOrder_ok_dest (db : DB) (uid oid : Nat) (db2 : DB) (o2 : Order)
    (h : cancelOrder db uid oid = (db2, Except.ok o2)) :
    ∃ order, findOrderOwned db.orders oid uid = some order
      ∧ o2.status = OrderStatus.cancelled
      ∧ o2.canCancel = false
      ∧ o2.canReorder = true
      ∧ o2.items = order.items
      ∧ db2.products = restoreStockLoop db.products order.items := by
  rw [cancelOrder] at h
  cases hfind : findOrderOwned db.orders oid uid with
  | none => rw [hfind] at h; simp at h
  | some order =>
    simp only [hfind] at h
    by_cases hguard : (!order.canCancel || order.status == OrderStatus.delivered
        || order.status == OrderStatus.cancelled) = true
    · rw [if_pos hguard] at h; simp at h
    · rw [if_neg hguard] at h
      rw [Prod.mk.injEq] at h
      obtain ⟨hdb, ho⟩ := h
      injection ho with ho
      subst ho; subst hdb
      exact ⟨order, rfl, rfl, rfl, rfl, rfl, rfl⟩

theorem cancelOrder_succeeds (db : DB) (uid oid : Nat) (order : Order)
    (hfound : findOrderOwned db.orders oid uid = some order)
    (hcc : order.canCancel = true)
    (hd : order.status ≠ OrderStatus.delivered)
    (hc : order.status ≠ OrderStatus.cancelled) :
    ∃ db2 o2, cancelOrder db uid oid = (db2, Except.ok o2) := by
  cases hres : cancelOrder db uid oid with
  | mk db2 res =>
    cases res with
    | ok o2 => exact ⟨db2, o2, rfl⟩
    | error e =>
      exfalso
      rw [cancelOrder] at hres
      simp only [hfound] at hres
      rw [if_neg (by simp [hcc, hd, hc])] at hres
      simp at hres

/-- C4.  An order placed by the workflow and then cancelled (its `canCancel`
flag still set, status neither delivered nor cancelled — both hold for a
fresh placement) restores every product's `stockCount` and `totalSold` to
their pre-placement values, and leaves the order cancelled with `canCancel`
cleared and `canReorder` set. -/
theorem c4_cancel_restores (db : DB) (uid : Nat) (req : CreateOrderReq) (db1 : DB) (o : Order)
    (h : createOrder db uid req = (db1, Except.ok o))
    (hfresh : ∀ o2 ∈ db.orders, o2.id < db.nextId) :
    o.canCancel = true
    ∧ o.status ≠ OrderStatus.delivered ∧ o.status ≠ OrderStatus.cancelled
    ∧ ∃ db2 o2, cancelOrder db1 uid o.id = (db2, Except.ok o2)
        ∧ (∀ pid, findBy Product.id pid db2.products = findBy Product.id pid db.products)
        ∧ o2.status = OrderStatus.cancelled
        ∧ o2.canCancel = false
        ∧ o2.canReorder = true := by
  obtain ⟨addr, ois, total, hfind, hval, hitems, htot, hid, huid, honum, hstatus, hcc,
    hfee, hdisc, hfin, hords, hprods, hnext⟩ := createOrder_ok_dest _ _ _ _ _ h
  have hd : o.status ≠ OrderStatus.delivered := by rw [hstatus]; intro hx; cases hx
  have hc : o.status ≠ OrderStatus.cancelled := by rw [hstatus]; intro hx; cases hx
  have hfound : findOrderOwned db1.orders o.id uid = some o := by
    rw [hords, findOrderOwned]
    rw [find?_append_of_none]
    · simp [List.find?_cons, huid]
    · intro x hx
      have hxne : x.id ≠ o.id := by
        rw [hid]
        exact Nat.ne_of_lt (hfresh x hx)
      simp [hxne]
  refine ⟨hcc, hd, hc, ?_⟩
  obtain ⟨db2, o2, hcan⟩ := cancelOrder_succeeds db1 uid o.id o hfound hcc hd hc
  obtain ⟨order, hfound2, hst2, hcc2, hcr2, hitems2, hprods2⟩ :=
    cancelOrder_ok_dest _ _ _ _ _ hcan
  rw [hfound] at hfound2
  injection hfound2 with horder
  subst horder
  refine ⟨db2, o2, hcan, ?_, hst2, hcc2, hcr2⟩
  intro pid
  rw [hprods2, hprods, hitems, findBy_restore_update]

/-- Witness for C4: cancelling the sample order returns product 1 to its
original stock and sold counters. -/
theorem c4_cancel_restores_witness :
    findBy Product.id 1 (cancelOrder wDB1 7 wOrder.id).1.products
      = findBy Product.id 1 wDB.products := by
  obtain ⟨hcc, hd, hc, db2, o2, hcan, hrest, hst, hcc2, hcr2⟩ :=
    c4_cancel_restores wDB 7 wReq wDB1 wOrder wCreate_eq (by decide)
  have hdb : (cancelOrder wDB1 7 wOrder.id).1 = db2 := by rw [hcan]
  rw [hdb]
  exact hrest 1

/-! ## Rating -/

theorem findOrderOwned_update_const (l : List Order) (oid uid : Nat) (o1 : Order)
    (hid : o1.id = oid) (huser : o1.userId = uid)
    (hfound : ∃ order, findOrderOwned l oid uid = some order) :
    findOrderOwned (findByIdAndUpdate Order.id l oid (fun _ => o1)) oid uid = some o1 := by
  induction l with
  | nil =>
    obtain ⟨order, horder⟩ := hfound
    exact Option.noConfusion horder
  | cons x xs ih =>
    by_cases hx : x.id = oid
    · simp [findByIdAndUpdate, findOrderOwned, List.find?_cons, hx, hid, huser]
    · obtain ⟨order, horder⟩ := hfound
      rw [findOrderOwned, List.find?_cons] at horder
      have hpx : (x.id == oid && x.userId == uid) = false := by simp [hx]
      rw [hpx] at horder
      have ihx := ih ⟨order, horder⟩
      simp only [findByIdAndUpdate, beq_iff_eq, hx, if_false]
      rw [findOrderOwned, List.find?_cons, hpx]
      exact ihx

/-- C5.  An order owned by the caller with `canRate` set, status delivered
and no rating recorded can be rated exactly once: the first call records the
rating and review and clears `canRate`; every further attempt fails with a
400 conflict and leaves the stored order (hence its rating) untouched. -/
theorem c5_rate_once (db : DB) (uid oid : Nat) (order : Order) (rating : Nat)
    (review : Option String)
    (hfound : findOrderOwned db.orders oid uid = some order)
    (hcr : order.canRate = true)
    (hst : order.status = OrderStatus.delivered)
    (hnr : order.rating = none) :
    ∃ db1 o1, rateOrder db uid oid rating review = (db1, Except.ok o1)
      ∧ o1.rating = some rating
      ∧ o1.review = review
      ∧ o1.canRate = false
      ∧ findOrderOwned db1.orders oid uid = some o1
      ∧ ∀ rating2 review2,
          rateOrder db1 uid oid rating2 review2
            = (db1, Except.error ⟨400, "This order cannot be rated"⟩) := by
  have hguard : (!order.canRate || !(order.status == OrderStatus.delivered)) = false := by
    simp [hcr, hst]
  have htruthy : jsTruthyRating order.rating = false := by rw [hnr]; rfl
  have hstep1 : rateOrder db uid oid rating review
      = ({ db with
            orders := findByIdAndUpdate Order.id db.orders oid
              (fun _ => { order with rating := some rating, review := review, canRate := false })
            notifications := db.notifications
              ++ [{ userId := uid, type := "rating", title := "Thank you for your rating!",
                    message := "You rated order " ++ order.orderNumber ++ " with "
                      ++ toString rating ++ " stars." }] },
         Except.ok { order with rating := some rating, review := review, canRate := false }) := by
    rw [rateOrder]
    simp only [hfound]
    rw [if_neg (by rw [hguard]; exact Bool.false_ne_true)]
    rw [if_neg (by rw [htruthy]; exact Bool.false_ne_true)]
  have hoid : order.id = oid := by
    have := List.find?_some hfound
    simp only [Bool.and_eq_true, beq_iff_eq] at this
    exact this.1
  have houid : order.userId = uid := by
    have := List.find?_some hfound
    simp only [Bool.and_eq_true, beq_iff_eq] at this
    exact this.2
  have hfound1 : findOrderOwned
      (findByIdAndUpdate Order.id db.orders oid
        (fun _ => { order with rating := some rating, review := review, canRate := false }))
      oid uid
      = some { order with rating := some rating, review := review, canRate := false } :=
    findOrderOwned_update_const _ _ _ _ hoid houid ⟨order, hfound⟩
  refine ⟨_, _, hstep1, rfl, rfl, rfl, hfound1, ?_⟩
  intro rating2 review2
  rw [rateOrder]
  simp only [hfound1]
  rw [if_pos (by simp)]

/-- Sample store holding one delivered, ratable order of user 7. -/
def wRatedOrder : Order :=
  { wOrder with
      id := 60
      status := OrderStatus.delivered
      canCancel := false
      canRate := true }

/-- Store for the rating witness. -/
def wDB4 : DB := { wDB with orders := [wRatedOrder] }

/-- Witness for C5: rating the sample delivered order once succeeds and the
second attempt gets the 400 conflict, with the stored rating unchanged. -/
theorem c5_rate_once_witness :
    (rateOrder wDB4 7 60 5 (some "great")).2
        = Except.ok { wRatedOrder with
            rating := some 5
            review := some "great"
            canRate := false }
    ∧ rateOrder (rateOrder wDB4 7 60 5 (some "great")).1 7 60 4 none
        = ((rateOrder wDB4 7 60 5 (some "great")).1,
           Except.error ⟨400, "This order cannot be rated"⟩) := by
  obtain ⟨db1, o1, hstep, hr, hv, hcrx, hfnd, hsecond⟩ :=
    c5_rate_once wDB4 7 60 wRatedOrder 5 (some "great") (by decide) rfl rfl rfl
  have hdb1 : (rateOrder wDB4 7 60 5 (some "great")).1 = db1 := by rw [hstep]
  constructor
  · rfl
  · rw [hdb1]
    exact hsecond 4 none

/-! ## Reorder -/

/-- A snapshot item of a previous order is purchasable again: its product
exists, is active, in stock, and has at least the snapshot quantity. -/
def itemPurchasable (ps : List Product) (item : OrderItem) : Bool :=
  match findBy Product.id item.productId ps with
  | none => false
  | some p => p.isActive && p.inStock && !(p.stockCount < (item.quantity : Int))

/-- Re-snapshot of a purchasable item at current catalog data, as
`reorderOrder` rebuilds it. -/
def refreshItem (ps : List Product) (item : OrderItem) : OrderItem :=
  match findBy Product.id item.productId ps with
  | none => item
  | some product =>
    { productId := product.id
      name := product.name
      quantity := item.quantity
      price := product.price
      image := product.images.head?
      unit := product.unit
      variant := jsOrEmpty (some item.variant) }

theorem revalidateItems_fst (ps : List Product) (items : List OrderItem) :
    (revalidateItems ps items).1
      = (items.filter (itemPurchasable ps)).map (refreshItem ps) := by
  induction items with
  | nil => rfl
  | cons item rest ih =>
    cases hfind : findBy Product.id item.productId ps with
    | none =>
      have hp : itemPurchasable ps item = false := by rw [itemPurchasable, hfind]
      simp only [revalidateItems, hfind, List.filter_cons, hp, Bool.false_eq_true, if_false, ih]
    | some product =>
      by_cases hflags : (!product.isActive || !product.inStock) = true
      · have hp : itemPurchasable ps item = false := by
          rw [itemPurchasable, hfind]
          simp only [Bool.or_eq_true, Bool.not_eq_true'] at hflags
          rcases hflags with hx | hx <;> simp [hx]
        simp only [revalidateItems, hfind, if_pos hflags, List.filter_cons, hp,
          Bool.false_eq_true, if_false, ih]
      · by_cases hqty : product.stockCount < (item.quantity : Int)
        · have hp : itemPurchasable ps item = false := by
            rw [itemPurchasable, hfind]
            simp [hqty]
          simp only [revalidateItems, hfind, if_neg hflags, if_pos hqty, List.filter_cons,
            hp, Bool.false_eq_true, if_false, ih]
        · have hp : itemPurchasable ps item = true := by
            rw [itemPurchasable, hfind]
            simp only [Bool.or_eq_true, Bool.not_eq_true'] at hflags
            push_neg at hflags
            simp [hflags.1, hflags.2, hqty]
          have hr : refreshItem ps item
              = { productId := product.id
                  name := product.name
                  quantity := item.quantity
                  price := product.price
                  image := product.images.head?
                  unit := product.unit
                  variant := jsOrEmpty (some item.variant) } := by
            rw [refreshItem, hfind]
          simp only [revalidateItems, hfind, if_neg hflags, if_neg hqty, List.filter_cons,
            hp, if_true, List.map_cons, ih, hr]

/-- C6.  Reordering an order owned by the caller with `canReorder` set
re-validates every snapshot item against the current catalog, silently
dropping the unavailable ones; it fails (store unchanged, 400) exactly when
no item remains purchasable, and otherwise the new order carries the
re-validated items together with the original order's delivery-address
snapshot and payment method. -/
theorem c6_reorder_revalidates (db : DB) (uid oid : Nat) (orig : Order)
    (hfound : findOrderOwned db.orders oid uid = some orig)
    (hcr : orig.canReorder = true) :
    (reorderOrder db uid oid
        = (db, Except.error ⟨400, "No products from the original order are currently available"⟩)
      ↔ orig.items.filter (itemPurchasable db.products) = [])
    ∧ ∀ db1 o, reorderOrder db uid oid = (db1, Except.ok o) →
        o.items = (orig.items.filter (itemPurchasable db.products)).map (refreshItem db.products)
        ∧ o.deliveryAddress = orig.deliveryAddress
        ∧ o.paymentMethod = orig.paymentMethod := by
  have hre := revalidateItems_fst db.products orig.items
  by_cases hemp : (revalidateItems db.products orig.items).1.isEmpty = true
  · have hnil : (revalidateItems db.products orig.items).1 = [] := by
      cases hx : (revalidateItems db.products orig.items).1 with
      | nil => rfl
      | cons y ys => rw [hx] at hemp; simp [List.isEmpty] at hemp
    have hfilter : orig.items.filter (itemPurchasable db.products) = [] := by
      rw [hnil] at hre
      exact (List.map_eq_nil_iff.mp hre.symm)
    have heq : reorderOrder db uid oid
        = (db, Except.error ⟨400, "No products from the original order are currently available"⟩) := by
      rw [reorderOrder]
      simp only [hfound, hcr, Bool.not_true, Bool.false_eq_true, if_false]
      rw [if_pos hemp]
    refine ⟨⟨fun _ => hfilter, fun _ => heq⟩, ?_⟩
    intro db1 o h2
    rw [heq] at h2
    rw [Prod.mk.injEq] at h2
    exact Except.noConfusion h2.2
  · have hfilter : orig.items.filter (itemPurchasable db.products) ≠ [] := by
      intro hx
      rw [hx] at hre
      simp only [List.map_nil] at hre
      rw [hre] at hemp
      exact hemp rfl
    cases hres : reorderOrder db uid oid with
    | mk db1 res =>
      cases res with
      | error e =>
        exfalso
        rw [reorderOrder] at hres
        simp only [hfound, hcr, Bool.not_true, Bool.false_eq_true, if_false] at hres
        rw [if_neg hemp] at hres
        simp at hres
      | ok o =>
        constructor
        · constructor
          · intro hx
            rw [Prod.mk.injEq] at hx
            exact absurd hx.2 (by simp)
          · intro hx
            exact absurd hx hfilter
        · intro db1x ox h2
          rw [Prod.mk.injEq] at h2
          obtain ⟨hdbx, hox⟩ := h2
          injection hox with hox
          subst hox
          obtain ⟨orig2, hfound2, hcr2, hitems2, hne2, htot2, honum2, hfee2, hdisc2,
            hfin2, hda2, hpm2⟩ := reorderOrder_ok_dest _ _ _ _ _ hres
          rw [hfound] at hfound2
          injection hfound2 with horig
          subst horig
          exact ⟨by rw [hitems2, hre], hda2, hpm2⟩

/-- A cancelled, reorderable order of user 7: 2 kg of product 1 at an old
price, plus one unit of a product (id 99) no longer in the catalog. -/
def wOldOrder : Order :=
  { id := 50
    userId := 7
    orderNumber := "HRA000001"
    status := OrderStatus.cancelled
    items := [⟨1, "Apple", 2, 90, none, "kg", ""⟩, ⟨99, "Ghost", 1, 10, none, "", ""⟩]
    totalAmount := 190
    deliveryFee := 40
    discount := 0
    finalAmount := 230
    deliveryAddress := snapshotAddress wAddress
    paymentMethod := PaymentMethod.upi
    paymentStatus := "pending"
    orderTracking := []
    canCancel := false
    canReorder := true
    canRate := false
    rating := none
    review := none
    promoCode := none
    specialInstructions := none }

/-- Store for the reorder witness. -/
def wDB2 : DB := { wDB with orders := [wOldOrder] }

/-- Store state after the sample reorder. -/
def wDB3 : DB := (reorderOrder wDB2 7 50).1

/-- The order the sample reorder persists: the vanished product is dropped,
the surviving item is re-priced at the current catalog price. -/
def wNewOrder : Order :=
  { id := 100
    userId := 7
    orderNumber := "HRA000002"
    status := OrderStatus.pending
    items := [⟨1, "Apple", 2, 100, some "apple.png", "kg", ""⟩]
    totalAmount := 200
    deliveryFee := 40
    discount := 0
    finalAmount := 240
    deliveryAddress := snapshotAddress wAddress
    paymentMethod := PaymentMethod.upi
    paymentStatus := "pending"
    orderTracking := [⟨"Order Placed", "Reorder placed successfully", true⟩]
    canCancel := true
    canReorder := false
    canRate := false
    rating := none
    review := none
    promoCode := none
    specialInstructions := none }

theorem wReorder_eq : reorderOrder wDB2 7 50 = (wDB3, Except.ok wNewOrder) := rfl

/-- Witness for C6: the sample reorder drops the vanished product, keeps the
re-validated one, and reuses the original address snapshot and payment
method. -/
theorem c6_reorder_revalidates_witness :
    reorderOrder wDB2 7 50 = (wDB3, Except.ok wNewOrder)
    ∧ (wNewOrder.items
        = (wOldOrder.items.filter (itemPurchasable wDB2.products)).map (refreshItem wDB2.products)
       ∧ wNewOrder.deliveryAddress = wOldOrder.deliveryAddress
       ∧ wNewOrder.paymentMethod = wOldOrder.paymentMethod) :=
  ⟨wReorder_eq,
   (c6_reorder_revalidates wDB2 7 50 wOldOrder (by decide) rfl).2 wDB3 wNewOrder wReorder_eq⟩

/-! ## Signup duplicate check -/

/-- C9 (amended).  With a password passing strength validation and a phone
number already registered, signup fails with a 400 duplicate-field error and
creates no user or address; the message names `Phone number` exactly when
the matched existing user's email differs from the supplied one (when the
supplied email is also that user's email, the message names `Email`
instead). -/
theorem c9_duplicate_phone_amended (db : DB) (req : SignupReq)
    (hpw : validatePasswordIsValid req.password = true)
    (hphone : ∃ u ∈ db.users, u.phone = req.phone) :
    ∃ u, db.users.find? (fun u => u.email == req.email || u.phone == req.phone) = some u
      ∧ signup db req
          = (db, Except.error ⟨400,
              (if u.email == req.email then "Email" else "Phone number")
                ++ " is already registered"⟩)
      ∧ (u.email ≠ req.email →
          signup db req = (db, Except.error ⟨400, "Phone number is already registered"⟩)) := by
  have hsome : (db.users.find? (fun u => u.email == req.email || u.phone == req.phone)).isSome := by
    rw [List.find?_isSome]
    obtain ⟨u, hu, hup⟩ := hphone
    exact ⟨u, hu, by simp [hup]⟩
  obtain ⟨u, hu⟩ := Option.isSome_iff_exists.mp hsome
  have hsig : signup db req
      = (db, Except.error ⟨400,
          (if u.email == req.email then "Email" else "Phone number")
            ++ " is already registered"⟩) := by
    rw [signup]
    rw [if_neg (by rw [hpw]; exact Bool.not_eq_true' .. |>.mpr rfl |>.symm ▸ by simp)]
    simp only [hu]
  refine ⟨u, hu, hsig, ?_⟩
  intro hne
  rw [hsig]
  have : (u.email == req.email) = false := by simp [hne]
  rw [this]
  rfl

/-- Registered sample user for the signup scenarios. -/
def c9user : User := ⟨1, "Bob", "bob@x.com", "1234567890", "hunter2", 0, 0, true⟩

/-- Store already holding `c9user`. -/
def c9db : DB := ⟨[], [], [c9user], [], [], [], 10⟩

/-- Signup request reusing both the registered email and the registered
phone number. -/
def c9req : SignupReq :=
  ⟨"Bob", "bob@x.com", "1234567890", "hunter2", "L1", none, none, "C", "S", "600001", "home"⟩

/-- Signup request reusing only the registered phone number. -/
def c9req2 : SignupReq :=
  ⟨"Rob", "other@x.com", "1234567890", "hunter2", "L1", none, none, "C", "S", "600001", "home"⟩

/-- Counterexample to C9 as stated: this signup reuses an already-registered
phone number (and also the same user's email) and a valid password, yet the
duplicate-field error names `Email`, not `Phone number`. -/
theorem c9_counterexample :
    (c9db.users.filter (fun u => u.phone == c9req.phone)).length = 1
    ∧ validatePasswordIsValid c9req.password = true
    ∧ signup c9db c9req = (c9db, Except.error ⟨400, "Email is already registered"⟩)
    ∧ "Email is already registered" ≠ "Phone number is already registered" :=
  ⟨by decide, by decide, rfl, by decide⟩

/-- Witness for the amended C9: with a distinct email, the duplicate-phone
signup fails naming `Phone number` and the store is unchanged. -/
theorem c9_duplicate_phone_witness :
    signup c9db c9req2 = (c9db, Except.error ⟨400, "Phone number is already registered"⟩) := by
  obtain ⟨u, hu, hsig, himp⟩ :=
    c9_duplicate_phone_amended c9db c9req2 (by decide) ⟨c9user, by decide, rfl⟩
  have hu2 : c9db.users.find? (fun u => u.email == c9req2.email || u.phone == c9req2.phone)
      = some c9user := rfl
  rw [hu2] at hu
  injection hu with hu
  subst hu
  exact himp (by decide)

/-! ## Address default-invariant lemmas -/

theorem map_id_unsetOtherDefaults (l : List Address) (uid aid : Nat) :
    (unsetOtherDefaults l uid aid).map Address.id = l.map Address.id := by
  induction l with
  | nil => rfl
  | cons a rest ih =>
    by_cases h : (a.userId == uid && !(a.id == aid)) = true
    · simp only [unsetOtherDefaults, List.map_cons, if_pos h] at *
      rw [ih]
    · simp only [unsetOtherDefaults, List.map_cons, if_neg h] at *
      rw [ih]

theorem unset_default_id (l : List Address) (uid aid : Nat) :
    ∀ b ∈ unsetOtherDefaults l uid aid, b.userId = uid → b.isDefault = true → b.id = aid := by
  intro b hb hbu hbd
  rw [unsetOtherDefaults] at hb
  obtain ⟨a, ha, hfa⟩ := List.mem_map.mp hb
  by_cases h : (a.userId == uid && !(a.id == aid)) = true
  · rw [if_pos h] at hfa
    rw [← hfa] at hbd
    simp at hbd
  · rw [if_neg h] at hfa
    subst hfa
    simp only [Bool.and_eq_true, beq_iff_eq, Bool.not_eq_true', beq_eq_false_iff_ne,
      not_and, not_not] at h
    exact h hbu

theorem mem_unsetOtherDefaults (l : List Address) (uid aid : Nat) (b : Address)
    (hb : b ∈ unsetOtherDefaults l uid aid) : ∃ a ∈ l, b.id = a.id := by
  rw [unsetOtherDefaults] at hb
  obtain ⟨a, ha, hfa⟩ := List.mem_map.mp hb
  refine ⟨a, ha, ?_⟩
  by_cases h : (a.userId == uid && !(a.id == aid)) = true
  · rw [if_pos h] at hfa; rw [← hfa]
  · rw [if_neg h] at hfa; rw [← hfa]

theorem defaultCount_unset_other (l : List Address) (uid aid uidx : Nat) (hne : uidx ≠ uid) :
    defaultCount (unsetOtherDefaults l uid aid) uidx = defaultCount l uidx := by
  induction l with
  | nil => rfl
  | cons a rest ih =>
    by_cases h : (a.userId == uid && !(a.id == aid)) = true
    · have hau : a.userId = uid := by
        simp only [Bool.and_eq_true, beq_iff_eq] at h
        exact h.1
      have hx : (a.userId == uidx && a.isDefault) = false := by
        simp [hau, Ne.symm hne]
      simp only [unsetOtherDefaults, List.map_cons, if_pos h] at *
      rw [defaultCount, List.countP_cons, defaultCount, List.countP_cons]
      rw [defaultCount] at ih
      rw [ih]
      have hx2 : (({ a with isDefault := false } : Address).userId == uidx
          && ({ a with isDefault := false } : Address).isDefault) = false := by
        simp
      rw [hx, hx2]
      rfl
    · simp only [unsetOtherDefaults, List.map_cons, if_neg h] at *
      rw [defaultCount, List.countP_cons, defaultCount, List.countP_cons]
      rw [defaultCount] at ih
      rw [ih]
      rfl

theorem countP_le_one_of_key (l : List Address) (p : Address → Bool) (k : Nat)
    (hkey : ∀ b ∈ l, p b = true → b.id = k)
    (hnodup : (l.map Address.id).Nodup) : l.countP p ≤ 1 := by
  have h1 : l.countP p ≤ l.countP (fun b => b.id == k) :=
    List.countP_mono_left (fun b hb hpb => by simp [hkey b hb hpb])
  have h2 : l.countP (fun b => b.id == k) = (l.map Address.id).count k := by
    rw [List.count, List.countP_map]
    rfl
  have h3 : (l.map Address.id).count k ≤ 1 :=
    List.nodup_iff_count_le_one.mp hnodup k
  omega

theorem defaultCount_nil (uidx : Nat) : defaultCount [] uidx = 0 := rfl

theorem defaultCount_append (l1 l2 : List Address) (uidx : Nat) :
    defaultCount (l1 ++ l2) uidx = defaultCount l1 uidx + defaultCount l2 uidx :=
  List.countP_append _ _ _

theorem not_mem_ids_of_lt (db : DB) (hlt : ∀ a ∈ db.addresses, a.id < db.nextId) :
    db.nextId ∉ db.addresses.map Address.id := by
  intro hmem
  obtain ⟨a, ha, haid⟩ := List.mem_map.mp hmem
  have := hlt a ha
  omega

theorem nodup_ids_concat (db : DB) (hnd : (db.addresses.map Address.id).Nodup)
    (hlt : ∀ a ∈ db.addresses, a.id < db.nextId) :
    (db.addresses.map Address.id ++ [db.nextId]).Nodup := by
  rw [List.nodup_append]
  refine ⟨hnd, List.nodup_singleton _, ?_⟩
  intro x hx1 hx2
  simp only [List.mem_singleton] at hx2
  subst hx2
  exact not_mem_ids_of_lt db hlt hx1

theorem defaultCount_unset_fresh (db : DB) (uid : Nat)
    (hlt : ∀ a ∈ db.addresses, a.id < db.nextId) :
    defaultCount (unsetOtherDefaults db.addresses uid db.nextId) uid = 0 := by
  rw [defaultCount, List.countP_eq_zero]
  intro b hb hpb
  simp only [Bool.and_eq_true, beq_iff_eq] at hpb
  have hid := unset_default_id db.addresses uid db.nextId b hb hpb.1 hpb.2
  obtain ⟨c, hc, hcid⟩ := mem_unsetOtherDefaults db.addresses uid db.nextId b hb
  have := hlt c hc
  omega

theorem addrInv_addAddress (db : DB) (uid : Nat) (req : AddressReq)
    (hinv : AddrInv db) : AddrInv (addAddress db uid req).1 := by
  obtain ⟨hnd, hlt, hcnt⟩ := hinv
  simp only [addAddress]
  generalize (if (db.addresses.filter (fun a => a.userId == uid)).length = 0 then true
    else req.isDefault.getD false) = D
  cases D with
  | true =>
    simp only [if_true]
    refine ⟨?_, ?_, ?_⟩
    · rw [List.map_append, map_id_unsetOtherDefaults, List.map_cons, List.map_nil]
      exact nodup_ids_concat db hnd hlt
    · intro a ha
      show a.id < db.nextId + 1
      rcases List.mem_append.mp ha with hl | hr
      · obtain ⟨c, hc, hcid⟩ := mem_unsetOtherDefaults db.addresses uid db.nextId a hl
        have := hlt c hc
        omega
      · simp only [List.mem_singleton] at hr
        subst hr
        simp
    · intro uidx
      rw [defaultCount_append]
      by_cases hu : uidx = uid
      · subst hu
        rw [defaultCount_unset_fresh db uidx hlt]
        simp [defaultCount, List.countP_cons]
      · rw [defaultCount_unset_other db.addresses uid db.nextId uidx hu]
        have hz : defaultCount
            [({ id := db.nextId, userId := uid, type := req.type, name := req.name,
                phone := req.phone, addressLine1 := req.addressLine1,
                addressLine2 := req.addressLine2, landmark := req.landmark,
                city := req.city, state := req.state, pincode := req.pincode,
                isDefault := true } : Address)] uidx = 0 := by
          simp [defaultCount, List.countP_cons, Ne.symm hu]
        rw [hz]
        have := hcnt uidx
        omega
  | false =>
    simp only [Bool.false_eq_true, if_false]
    refine ⟨?_, ?_, ?_⟩
    · rw [List.map_append, List.map_cons, List.map_nil]
      exact nodup_ids_concat db hnd hlt
    · intro a ha
      show a.id < db.nextId + 1
      rcases List.mem_append.mp ha with hl | hr
      · have := hlt a hl
        omega
      · simp only [List.mem_singleton] at hr
        subst hr
        simp
    · intro uidx
      rw [defaultCount_append]
      have hz : defaultCount
          [({ id := db.nextId, userId := uid, type := req.type, name := req.name,
              phone := req.phone, addressLine1 := req.addressLine1,
              addressLine2 := req.addressLine2, landmark := req.landmark,
              city := req.city, state := req.state, pincode := req.pincode,
              isDefault := false } : Address)] uidx = 0 := by
        simp [defaultCount, List.countP_cons]
      rw [hz]
      have := hcnt uidx
      omega

theorem findAddressOwned_fields (l : List Address) (aid uid : Nat) (a : Address)
    (h : findAddressOwned l aid uid = some a) : a.id = aid ∧ a.userId = uid := by
  have := List.find?_some h
  simp only [Bool.and_eq_true, beq_iff_eq] at this
  exact this

theorem addrInv_updateAddress (db : DB) (uid aid : Nat) (req : AddressUpdateReq)
    (hinv : AddrInv db) (howner : req.userId = none) :
    AddrInv (updateAddress db uid aid req).1 := by
  obtain ⟨hnd, hlt, hcnt⟩ := hinv
  rw [updateAddress]
  cases hfind : findAddressOwned db.addresses aid uid with
  | none => exact ⟨hnd, hlt, hcnt⟩
  | some a0 =>
    have hfid : ∀ x : Address, Address.id x = aid → Address.id (applyAddressUpdate x req) = aid :=
      fun x hx => hx
    refine ⟨?_, ?_, ?_⟩
    · show ((findByIdAndUpdate Address.id db.addresses aid
          (fun a => applyAddressUpdate a req)).map Address.id).Nodup
      rw [map_key_findByIdAndUpdate Address.id _ aid hfid]
      exact hnd
    · intro b hb
      show b.id < db.nextId
      rcases mem_findByIdAndUpdate Address.id _ aid _ b hb with hl | ⟨a, ha, hak, hfa⟩
      · exact hlt b hl
      · rw [hfa]
        show a.id < db.nextId
        exact hlt a ha
    · intro uidx
      show defaultCount (findByIdAndUpdate Address.id db.addresses aid
          (fun a => applyAddressUpdate a req)) uidx ≤ 1
      rw [defaultCount]
      have hle := countP_findByIdAndUpdate_le Address.id
        (fun a => applyAddressUpdate a req) aid
        (fun a => a.userId == uidx && a.isDefault) ?hp db.addresses
      · exact le_trans hle (hcnt uidx)
      · intro x hx hpf
        have huser : (applyAddressUpdate x req).userId = x.userId := by
          rw [applyAddressUpdate]
          show req.userId.getD x.userId = x.userId
          rw [howner]
          rfl
        have hdef : (applyAddressUpdate x req).isDefault = x.isDefault := rfl
        have hpf2 : ((applyAddressUpdate x req).userId == uidx
            && (applyAddressUpdate x req).isDefault) = true := hpf
        rw [huser, hdef] at hpf2
        exact hpf2

theorem addrInv_components_remove (db : DB) (l : List Address) (aid : Nat)
    (hnd : (l.map Address.id).Nodup)
    (hlt : ∀ a ∈ l, a.id < db.nextId)
    (hcnt : ∀ uidx, defaultCount l uidx ≤ 1) :
    ((removeById Address.id l aid).map Address.id).Nodup
    ∧ (∀ a ∈ removeById Address.id l aid, a.id < db.nextId)
    ∧ ∀ uidx, defaultCount (removeById Address.id l aid) uidx ≤ 1 := by
  have hsub := removeById_sublist Address.id aid l
  refine ⟨?_, ?_, ?_⟩
  · exact List.Nodup.sublist (List.Sublist.map Address.id hsub) hnd
  · intro a ha
    exact hlt a (hsub.subset ha)
  · intro uidx
    exact le_trans (List.Sublist.countP_le _ hsub) (hcnt uidx)

theorem addrInv_deleteAddress (db : DB) (uid aid : Nat) (hinv : AddrInv db) :
    AddrInv (deleteAddress db uid aid).1 := by
  obtain ⟨hnd, hlt, hcnt⟩ := hinv
  rw [deleteAddress]
  cases hfind : findAddressOwned db.addresses aid uid with
  | none => exact ⟨hnd, hlt, hcnt⟩
  | some address =>
    simp only [hfind]
    by_cases hdef : address.isDefault = true
    · rw [if_pos hdef]
      cases hother : db.addresses.find? (fun a => a.userId == uid && !(a.id == aid)) with
      | none =>
        simp only [hother]
        obtain ⟨h1, h2, h3⟩ := addrInv_components_remove db db.addresses aid hnd hlt hcnt
        exact ⟨h1, h2, h3⟩
      | some other =>
        simp only [hother]
        have hoth_mem : other ∈ db.addresses := List.mem_of_find?_eq_some hother
        have hoth_user : other.userId = uid := by
          have := List.find?_some hother
          simp only [Bool.and_eq_true, beq_iff_eq] at this
          exact this.1
        have hfid : ∀ x : Address, Address.id x = other.id →
            Address.id ((fun _ => { other with isDefault := true }) x) = other.id :=
          fun x _ => rfl
        have hnd2 : ((findByIdAndUpdate Address.id
            (unsetOtherDefaults db.addresses uid other.id) other.id
            (fun _ => { other with isDefault := true })).map Address.id).Nodup := by
          rw [map_key_findByIdAndUpdate Address.id _ other.id hfid,
            map_id_unsetOtherDefaults]
          exact hnd
        have hlt2 : ∀ a ∈ findByIdAndUpdate Address.id
            (unsetOtherDefaults db.addresses uid other.id) other.id
            (fun _ => { other with isDefault := true }), a.id < db.nextId := by
          intro b hb
          rcases mem_findByIdAndUpdate Address.id _ other.id _ b hb with hl | ⟨a, ha, hak, hfa⟩
          · obtain ⟨c, hc, hcid⟩ := mem_unsetOtherDefaults db.addresses uid other.id b hl
            have := hlt c hc
            omega
          · rw [hfa]
            show other.id < db.nextId
            exact hlt other hoth_mem
        have hcnt2 : ∀ uidx, defaultCount (findByIdAndUpdate Address.id
            (unsetOtherDefaults db.addresses uid other.id) other.id
            (fun _ => { other with isDefault := true })) uidx ≤ 1 := by
          intro uidx
          by_cases hu : uidx = uid
          · subst hu
            rw [defaultCount]
            refine countP_le_one_of_key _ _ other.id ?_ hnd2
            intro b hb hpb
            simp only [Bool.and_eq_true, beq_iff_eq] at hpb
            rcases mem_findByIdAndUpdate Address.id _ other.id _ b hb with hl | ⟨a, ha, hak, hfa⟩
            · exact unset_default_id db.addresses uidx other.id b hl hpb.1 hpb.2
            · rw [hfa]
          · rw [defaultCount]
            have hle := countP_findByIdAndUpdate_le Address.id
              (fun _ => ({ other with isDefault := true } : Address)) other.id
              (fun a => a.userId == uidx && a.isDefault) ?hp
              (unsetOtherDefaults db.addresses uid other.id)
            · refine le_trans hle ?_
              have := defaultCount_unset_other db.addresses uid other.id uidx hu
              rw [defaultCount] at this
              rw [this]
              exact hcnt uidx
            · intro x hx hpf
              exfalso
              simp only [Bool.and_eq_true, beq_iff_eq] at hpf
              have : other.userId = uidx := hpf.1
              rw [hoth_user] at this
              exact hu this.symm
        obtain ⟨h1, h2, h3⟩ := addrInv_components_remove db _ aid hnd2 hlt2 hcnt2
        exact ⟨h1, h2, h3⟩
    · rw [if_neg hdef]
      obtain ⟨h1, h2, h3⟩ := addrInv_components_remove db db.addresses aid hnd hlt hcnt
      exact ⟨h1, h2, h3⟩

theorem addrInv_setDefaultAddress (db : DB) (uid aid : Nat) (hinv : AddrInv db) :
    AddrInv (setDefaultAddress db uid aid).1 := by
  obtain ⟨hnd, hlt, hcnt⟩ := hinv
  rw [setDefaultAddress]
  cases hfind : findAddressOwned db.addresses aid uid with
  | none => exact ⟨hnd, hlt, hcnt⟩
  | some address =>
    simp only [hfind]
    obtain ⟨haid, hauser⟩ := findAddressOwned_fields db.addresses aid uid address hfind
    have hmem : address ∈ db.addresses := List.mem_of_find?_eq_some hfind
    have hfid : ∀ x : Address, Address.id x = aid →
        Address.id ((fun _ => { address with isDefault := true }) x) = aid :=
      fun x _ => haid
    refine ⟨?_, ?_, ?_⟩
    · show ((findByIdAndUpdate Address.id
          (unsetOtherDefaults (unsetOtherDefaults db.addresses uid aid) uid aid) aid
          (fun _ => { address with isDefault := true })).map Address.id).Nodup
      rw [map_key_findByIdAndUpdate Address.id _ aid hfid,
        map_id_unsetOtherDefaults, map_id_unsetOtherDefaults]
      exact hnd
    · intro b hb
      show b.id < db.nextId
      rcases mem_findByIdAndUpdate Address.id _ aid _ b hb with hl | ⟨a, ha, hak, hfa⟩
      · obtain ⟨c, hc, hcid⟩ := mem_unsetOtherDefaults _ uid aid b hl
        obtain ⟨d, hd, hdid⟩ := mem_unsetOtherDefaults db.addresses uid aid c hc
        have := hlt d hd
        omega
      · rw [hfa]
        show address.id < db.nextId
        exact hlt address hmem
    · intro uidx
      show defaultCount (findByIdAndUpdate Address.id
          (unsetOtherDefaults (unsetOtherDefaults db.addresses uid aid) uid aid) aid
          (fun _ => { address with isDefault := true })) uidx ≤ 1
      by_cases hu : uidx = uid
      · subst hu
        rw [defaultCount]
        refine countP_le_one_of_key _ _ aid ?_ ?_
        · intro b hb hpb
          simp only [Bool.and_eq_true, beq_iff_eq] at hpb
          rcases mem_findByIdAndUpdate Address.id _ aid _ b hb with hl | ⟨a, ha, hak, hfa⟩
          · exact unset_default_id _ uidx aid b hl hpb.1 hpb.2
          · rw [hfa]
            exact haid
        · rw [map_key_findByIdAndUpdate Address.id _ aid hfid,
            map_id_unsetOtherDefaults, map_id_unsetOtherDefaults]
          exact hnd
      · rw [defaultCount]
        have hle := countP_findByIdAndUpdate_le Address.id
          (fun _ => ({ address with isDefault := true } : Address)) aid
          (fun a => a.userId == uidx && a.isDefault) ?hp
          (unsetOtherDefaults (unsetOtherDefaults db.addresses uid aid) uid aid)
        · refine le_trans hle ?_
          have h1 := defaultCount_unset_other (unsetOtherDefaults db.addresses uid aid)
            uid aid uidx hu
          have h2 := defaultCount_unset_other db.addresses uid aid uidx hu
          show defaultCount
            (unsetOtherDefaults (unsetOtherDefaults db.addresses uid aid) uid aid) uidx ≤ 1
          rw [h1, h2]
          exact hcnt uidx
        · intro x hx hpf
          exfalso
          simp only [Bool.and_eq_true, beq_iff_eq] at hpf
          have : address.userId = uidx := hpf.1
          rw [hauser] at this
          exact hu this.symm

/-- An address operation keeps each address's owner: an update request must
not carry a client-supplied `userId` (the controller only strips
`isDefault`, so a supplied `userId` would reassign the address). -/
def opKeepsOwner : AddrOp → Prop
  | AddrOp.update _ _ req => req.userId = none
  | _ => True

theorem addrInv_applyOp (db : DB) (op : AddrOp) (hinv : AddrInv db)
    (hop : opKeepsOwner op) : AddrInv (applyAddrOp db op) := by
  cases op with
  | add uid req => exact addrInv_addAddress db uid req hinv
  | update uid aid req => exact addrInv_updateAddress db uid aid req hinv hop
  | delete uid aid => exact addrInv_deleteAddress db uid aid hinv
  | setDefault uid aid => exact addrInv_setDefaultAddress db uid aid hinv

theorem addrInv_foldl (db : DB) (ops : List AddrOp) (hinv : AddrInv db)
    (hops : ∀ op ∈ ops, opKeepsOwner op) : AddrInv (ops.foldl applyAddrOp db) := by
  induction ops generalizing db with
  | nil => exact hinv
  | cons op rest ih =>
    rw [List.foldl_cons]
    exact ih (applyAddrOp db op) (addrInv_applyOp db op hinv (hops op (by simp)))
      (fun o ho => hops o (by simp [ho]))

/-- C2 (amended).  Starting from a healthy store (unique address ids below
the fresh-id supply, at most one default per user), any sequence of
add / update / delete / set-default operations keeps at most one default
address per user — provided no update request reassigns an address's owner
via a client-supplied `userId` (which the controller does not strip, and
which breaks the invariant for the receiving user). -/
theorem c2_at_most_one_default (db : DB) (ops : List AddrOp)
    (hinv : AddrInv db)
    (hops : ∀ op ∈ ops, opKeepsOwner op) :
    ∀ uid, defaultCount ((ops.foldl applyAddrOp db).addresses) uid ≤ 1 :=
  (addrInv_foldl db ops hinv hops).2.2

/-- Default address of user 1. -/
def cxA1 : Address :=
  ⟨1, 1, "home", "A", "1111111111", "L1", none, none, "C", "S", "600001", true⟩

/-- Default address of user 2. -/
def cxA2 : Address :=
  ⟨2, 2, "home", "B", "2222222222", "L2", none, none, "C", "S", "600002", true⟩

/-- Store with one default address per user. -/
def cxDB : DB := ⟨[], [], [], [cxA1, cxA2], [], [], 10⟩

/-- Update body carrying only a `userId` — reassigning the address to
user 2. -/
def cxUpd : AddressUpdateReq :=
  ⟨some 2, none, none, none, none, none, none, none, none, none, none⟩

/-- The offending single-operation sequence: user 1 updates their own
address 1 with a body containing `userId: 2`. -/
def cxOps : List AddrOp := [AddrOp.update 1 1 cxUpd]

/-- Counterexample to C2 as stated: from a healthy store (unique ids, one
default per user), one update operation leaves user 2 with two default
addresses, because the controller strips only `isDefault` from the update
body, so a client-supplied `userId` moves the still-default address onto
user 2. -/
theorem c2_counterexample :
    (cxDB.addresses.map Address.id).Nodup
    ∧ defaultCount cxDB.addresses 1 = 1
    ∧ defaultCount cxDB.addresses 2 = 1
    ∧ defaultCount ((cxOps.foldl applyAddrOp cxDB).addresses) 2 = 2 := by
  refine ⟨by decide, by decide, by decide, by decide⟩

/-- Empty store for the C2 witness. -/
def wAddrDB : DB := ⟨[], [], [], [], [], [], 0⟩

/-- First added address (no `isDefault` supplied). -/
def wAddrReq1 : AddressReq :=
  ⟨"home", "A", "1111111111", "L1", none, none, "C", "S", "600001", none⟩

/-- Second added address, sent with `isDefault: true`. -/
def wAddrReq2 : AddressReq :=
  ⟨"work", "A", "1111111111", "L2", none, none, "C", "S", "600001", some true⟩

/-- Sample operation sequence: two adds, a set-default, a delete. -/
def wAddrOps : List AddrOp :=
  [AddrOp.add 1 wAddrReq1, AddrOp.add 1 wAddrReq2,
   AddrOp.setDefault 1 0, AddrOp.delete 1 1]

/-- Witness for the amended C2: after the sample sequence user 1 has at most
one default address. -/
theorem c2_at_most_one_default_witness :
    defaultCount ((wAddrOps.foldl applyAddrOp wAddrDB).addresses) 1 ≤ 1 := by
  have hinv : AddrInv wAddrDB := by
    refine ⟨by simp [wAddrDB], by simp [wAddrDB], ?_⟩
    intro uid
    simp [wAddrDB, defaultCount]
  have hops : ∀ op ∈ wAddrOps, opKeepsOwner op := by
    intro op hop
    simp only [wAddrOps, List.mem_cons, List.not_mem_nil, or_false] at hop
    rcases hop with rfl | rfl | rfl | rfl <;> trivial
  exact c2_at_most_one_default wAddrDB wAddrOps hinv hops 1

end Heera
